import Mathlib

/-!
Verification of the EDAA-FAB reconciliation scripts.

The repository consists of five near-duplicate Python scripts that reconcile
two tabular sheets (CDL on the left, GITHUB on the right) by fuzzy string
matching on designated column pairs:

  * merge_cust_compare.py : one-to-one with a visible Duplicated label
  * merge_vend_compare.py : one-to-one, consumed rights silently skipped
  * merge_sheets.py       : one-to-one, consumed rights silently skipped, no label
  * merge_loc_compare.py  : many-to-one, dual-key label with a Both_Matches case
  * compare_sheets.py     : many-to-many, matched pairs to one file, unmatched to another

We embed the core row-processing loops of each script.  A cell value is an
`Option String` (`none` models a pandas NaN / absent cell); a row is an
insertion-ordered association list from column name to value, mirroring the
Python dict built by `row.to_dict()` and subsequent keyed assignments.
File and sheet I/O, printing, and path handling are out of scope.
-/

/-- A cell value: `none` models pandas NaN (an empty or absent cell),
`some s` a present scalar rendered as the string `str(v)`. -/
abbrev Value := Option String

/-- A row: an insertion-ordered mapping from column name to cell value,
as built by the scripts via `dict` insertion. -/
abbrev Row := List (String × Value)

/-- Column access `row[col]`: the first binding of the column name wins,
as in a Python dict.  The scripts only access validated column names. -/
def getVal (r : Row) (c : String) : Value :=
  match List.lookup c r with
  | some v => v
  | none => none

/-- Leading and trailing whitespace removal on a character list, modelling
Python str.strip(). -/
def stripChars (l : List Char) : List Char :=
  ((l.dropWhile Char.isWhitespace).reverse.dropWhile Char.isWhitespace).reverse

/-- The canonical form used by every script for comparison:
`str(v).strip().upper()`, modelled at the character-list level. -/
def canon (s : String) : String :=
  ⟨(stripChars s.data).map Char.toUpper⟩

/-- Embedding of `values_match` from merge_cust_compare.py lines 21-34 and
merge_vend_compare.py lines 20-33: `False` when either side is NaN,
otherwise equality of the stripped, upper-cased string forms.  The other
scripts inline exactly this test. -/
def values_match : Value → Value → Bool
  | none, _ => false
  | _, none => false
  | some a, some b => canon a == canon b

theorem values_match_none_left (v : Value) : values_match none v = false := by
  cases v <;> rfl

theorem values_match_none_right (v : Value) : values_match v none = false := by
  cases v <;> rfl

theorem values_match_some (a b : String) :
    values_match (some a) (some b) = (canon a == canon b) := rfl

/-- C1, counterexample: the claim states that the empty string never matches
the empty string, but `values_match` only screens out NaN values; two
present empty-string cells compare equal after trimming and upper-casing,
so the pair ("", "") does match. -/
theorem C1_counterexample : values_match (some "") (some "") = true := by
  decide

/-- C1, amended: a pair matches exactly when both sides are present (non-NaN)
and their trimmed, upper-cased forms are equal; an absent (NaN) side never
matches, and "Foo  " matches "FOO".  A present empty string is compared like
any other string, so "" does match "" when both sides are actual values. -/
theorem C1_values_match_semantics :
    (∀ a b : Value, values_match a b = true ↔
      ∃ x y : String, a = some x ∧ b = some y ∧ canon x = canon y)
    ∧ values_match (some "Foo  ") (some "FOO") = true
    ∧ (∀ v : Value, values_match none v = false)
    ∧ (∀ v : Value, values_match v none = false) := by
  refine ⟨?_, by decide, fun v => by cases v <;> rfl, fun v => by cases v <;> rfl⟩
  intro a b
  constructor
  · intro h
    cases a with
    | none => simp [values_match] at h
    | some x =>
      cases b with
      | none => simp [values_match] at h
      | some y =>
        exact ⟨x, y, rfl, rfl, by simpa [values_match] using h⟩
  · rintro ⟨x, y, rfl, rfl, hxy⟩
    simp [values_match, hxy]

/-! ## Shared row-assembly helpers

Each script builds its output rows by starting from the left row dict,
then assigning one `GITHUB_`-prefixed key per right column, then (in the
labelled variants) a classification key. -/

/-- Right-hand columns of a matched right row, each renamed with the
GITHUB_ prefix, in right-schema order. -/
def prefixedCols (rcols : List String) (r : Row) : Row :=
  rcols.map (fun c => ("GITHUB_" ++ c, getVal r c))

/-- Right-hand columns all set to None, as assigned for unmatched or
duplicate left rows. -/
def emptyRightCols (rcols : List String) : Row :=
  rcols.map (fun c => ("GITHUB_" ++ c, (none : Value)))

/-- Left-hand columns all set to None, as assigned for unmatched right rows. -/
def emptyLeftCols (lcols : List String) : Row :=
  lcols.map (fun c => (c, (none : Value)))

/-! ## merge_cust_compare.py

One-to-one matching where an already-consumed right record that is hit
first produces a visible Duplicated classification on the current left
row (lines 95-149). -/

def custComment1 : String := "CDL Column I matches GITHUB Column D"

def custComment2 : String := "CDL Column K matches GITHUB Column E"

def custDup1 : String := "Duplicated (CDL Column I matches GITHUB Column D - already matched)"

def custDup2 : String := "Duplicated (CDL Column K matches GITHUB Column E - already matched)"

def custNoMatchLeft : String := "No matching record in GITHUB"

def custNoMatchRight : String := "No matching record in CDL"

/-- Result of the inner scan over GITHUB rows for one CDL row in
merge_cust_compare.py: a fresh match (consuming the right index), a hit on
an already-consumed right row (Duplicated), or no hit at all. -/
inductive CustScan where
  | found (idx : Nat) (row : Row) (comment : String)
  | dup (comment : String)
  | nomatch
deriving DecidableEq

/-- The inner loop of merge_cust_compare.py lines 95-121: scan the GITHUB
rows in order; on the first row whose cdm_column matches Column I (or,
failing that, whose pdm_column matches Column K), stop - flagging a
duplicate when that row was already consumed. -/
def custScan (consumed : List Nat) (vi vk : Value) : List (Nat × Row) → CustScan
  | [] => .nomatch
  | (idx, r) :: rest =>
    if values_match vi (getVal r "cdm_column") then
      if idx ∈ consumed then .dup custDup1
      else .found idx r custComment1
    else if values_match vk (getVal r "pdm_column") then
      if idx ∈ consumed then .dup custDup2
      else .found idx r custComment2
    else custScan consumed vi vk rest

/-- The outer loop of merge_cust_compare.py lines 85-149: one output row per
CDL row, threading the set of consumed GITHUB indices.  Returns the rows in
order together with the final consumed set. -/
def mergeCustRows (rcols : List String) (rights : List (Nat × Row)) :
    List Row → List Nat → List Row × List Nat
  | [], consumed => ([], consumed)
  | lrow :: rest, consumed =>
    match custScan consumed (getVal lrow "Table Field Name") (getVal lrow "Biz Name") rights with
    | .found idx r comment =>
      let next := mergeCustRows rcols rights rest (idx :: consumed)
      ((lrow ++ prefixedCols rcols r ++ [("Comments", some comment)]) :: next.1, next.2)
    | .dup comment =>
      let next := mergeCustRows rcols rights rest consumed
      ((lrow ++ emptyRightCols rcols ++ [("Comments", some comment)]) :: next.1, next.2)
    | .nomatch =>
      let next := mergeCustRows rcols rights rest consumed
      ((lrow ++ emptyRightCols rcols ++ [("Comments", some custNoMatchLeft)]) :: next.1, next.2)

/-- merge_cust_compare.py lines 154-173: the GITHUB rows never consumed,
taken in ascending original-index order (`sorted(set(index) - matched)`),
each emitted with empty CDL columns, prefixed GITHUB columns, and the
unmatched-right comment. -/
def custUnmatchedRights (lcols rcols : List String) (rights : List (Nat × Row))
    (consumed : List Nat) : List Row :=
  (rights.filter (fun p => decide (p.1 ∉ consumed))).map
    (fun p => emptyLeftCols lcols ++ prefixedCols rcols p.2
      ++ [("Comments", some custNoMatchRight)])

/-- The final consumed set of a merge_cust_compare.py run. -/
def custFinalConsumed (rcols : List String) (lrows rrows : List Row) : List Nat :=
  (mergeCustRows rcols rrows.enum lrows []).2

/-- The record-processing core of merge_cust_compare.py lines 77-178:
all CDL rows in order, then the unmatched GITHUB rows. -/
def merge_cust_core (lcols rcols : List String) (lrows rrows : List Row) : List Row :=
  (mergeCustRows rcols rrows.enum lrows []).1
    ++ custUnmatchedRights lcols rcols rrows.enum (custFinalConsumed rcols lrows rrows)

/-- merge_cust_compare.py lines 67-75 followed by the core: the four
required-column checks run, in source order, before any row is scanned. -/
def merge_cust_compare (lcols rcols : List String) (lrows rrows : List Row) :
    Except String (List Row) :=
  if "Table Field Name" ∉ lcols then
    .error "CDL sheet must contain column Table Field Name"
  else if "Biz Name" ∉ lcols then
    .error "CDL sheet must contain column Biz Name"
  else if "cdm_column" ∉ rcols then
    .error "GITHUB sheet must contain column cdm_column"
  else if "pdm_column" ∉ rcols then
    .error "GITHUB sheet must contain column pdm_column"
  else
    .ok (merge_cust_core lcols rcols lrows rrows)

/-! ## merge_vend_compare.py

One-to-one matching where already-consumed GITHUB rows are silently
skipped during the scan (lines 90-110: `continue`), so no Duplicated
classification ever appears. -/

def vendComment1 : String := "CDL Column G matches GITHUB Column D"

def vendComment2 : String := "CDL Column K matches GITHUB Column E"

/-- The inner loop of merge_vend_compare.py lines 90-110: skip consumed
GITHUB rows, then take the first remaining row whose cdm_column matches
Column G or whose pdm_column matches Column K. -/
def vendScan (consumed : List Nat) (vg vk : Value) :
    List (Nat × Row) → Option (Nat × Row × String)
  | [] => none
  | (idx, r) :: rest =>
    if idx ∈ consumed then vendScan consumed vg vk rest
    else if values_match vg (getVal r "cdm_column") then some (idx, r, vendComment1)
    else if values_match vk (getVal r "pdm_column") then some (idx, r, vendComment2)
    else vendScan consumed vg vk rest

/-- The outer loop of merge_vend_compare.py lines 81-133: one output row per
CDL row, consuming the matched GITHUB index. -/
def mergeVendRows (rcols : List String) (rights : List (Nat × Row)) :
    List Row → List Nat → List Row × List Nat
  | [], consumed => ([], consumed)
  | lrow :: rest, consumed =>
    match vendScan consumed (getVal lrow "Table Field Name") (getVal lrow "Biz Name") rights with
    | some (idx, r, comment) =>
      let next := mergeVendRows rcols rights rest (idx :: consumed)
      ((lrow ++ prefixedCols rcols r ++ [("Comments", some comment)]) :: next.1, next.2)
    | none =>
      let next := mergeVendRows rcols rights rest consumed
      ((lrow ++ emptyRightCols rcols ++ [("Comments", some custNoMatchLeft)]) :: next.1, next.2)

/-- The record-processing core of merge_vend_compare.py lines 73-157:
all CDL rows in order, then the unmatched GITHUB rows in ascending index
order with the same row shape as in merge_cust_compare.py. -/
def merge_vend_core (lcols rcols : List String) (lrows rrows : List Row) : List Row :=
  let run := mergeVendRows rcols rrows.enum lrows []
  run.1 ++ custUnmatchedRights lcols rcols rrows.enum run.2

/-! ## merge_sheets.py

One-to-one matching, consumed GITHUB rows silently skipped, and no
classification column at all (lines 61-128). -/

/-- The inner loop of merge_sheets.py lines 69-92: skip consumed rows, then
take the first row where Column I matches cdm_column or Column M (named c)
matches pdm_column.  The two nested NaN-guarded comparisons of lines 78-86
are exactly `values_match` inlined. -/
def sheetsScan (consumed : List Nat) (vi vm : Value) :
    List (Nat × Row) → Option (Nat × Row)
  | [] => none
  | (idx, r) :: rest =>
    if idx ∈ consumed then sheetsScan consumed vi vm rest
    else if values_match vi (getVal r "cdm_column") || values_match vm (getVal r "pdm_column") then
      some (idx, r)
    else sheetsScan consumed vi vm rest

/-- The outer loop of merge_sheets.py lines 61-107: one output row per CDL
row, with no Comments column. -/
def mergeSheetsRows (rcols : List String) (rights : List (Nat × Row)) :
    List Row → List Nat → List Row × List Nat
  | [], consumed => ([], consumed)
  | lrow :: rest, consumed =>
    match sheetsScan consumed (getVal lrow "Table Field Name") (getVal lrow "c") rights with
    | some (idx, r) =>
      let next := mergeSheetsRows rcols rights rest (idx :: consumed)
      ((lrow ++ prefixedCols rcols r) :: next.1, next.2)
    | none =>
      let next := mergeSheetsRows rcols rights rest consumed
      ((lrow ++ emptyRightCols rcols) :: next.1, next.2)

/-- merge_sheets.py lines 116-128: unmatched GITHUB rows in ascending index
order, empty CDL columns plus prefixed GITHUB columns, no comment. -/
def sheetsUnmatchedRights (lcols rcols : List String) (rights : List (Nat × Row))
    (consumed : List Nat) : List Row :=
  (rights.filter (fun p => decide (p.1 ∉ consumed))).map
    (fun p => emptyLeftCols lcols ++ prefixedCols rcols p.2)

/-- The record-processing core of merge_sheets.py lines 53-133. -/
def merge_sheets_core (lcols rcols : List String) (lrows rrows : List Row) : List Row :=
  let run := mergeSheetsRows rcols rrows.enum lrows []
  run.1 ++ sheetsUnmatchedRights lcols rcols rrows.enum run.2

/-! ## merge_loc_compare.py

Many-to-one matching: the scan never consults the consumed set, which is
only collected to decide which GITHUB rows are appended as unmatched.  The
Match_Type label distinguishes a simultaneous dual-key match (lines 86-125). -/

def locBoth : String := "Both_Matches"

def locLabel1 : String := "CDL_I_matches_GITHUB_D"

def locLabel2 : String := "CDL_K_matches_GITHUB_E"

def locNoMatch : String := "No_Match"

def locUnmatchedRight : String := "Unmatched_GITHUB"

/-- The Match_Type label of merge_loc_compare.py lines 112-117, given the
two key-pair comparison outcomes. -/
def locLabel (m1 m2 : Bool) : String :=
  if m1 && m2 then locBoth
  else if m1 then locLabel1
  else locLabel2

/-- The combined per-candidate test of merge_loc_compare.py lines 90-103:
Column I against cdm_column or Column K (EDL Tables) against pdm_column. -/
def locMatches (vi vk : Value) (r : Row) : Bool :=
  values_match vi (getVal r "cdm_column") || values_match vk (getVal r "pdm_column")

/-- The inner loop of merge_loc_compare.py lines 86-119: take the first
GITHUB row where either key pair matches, with its label. -/
def locScan (vi vk : Value) : List (Nat × Row) → Option (Nat × Row × String)
  | [] => none
  | (idx, r) :: rest =>
    let m1 := values_match vi (getVal r "cdm_column")
    let m2 := values_match vk (getVal r "pdm_column")
    if m1 || m2 then some (idx, r, locLabel m1 m2)
    else locScan vi vk rest

/-- The outer loop of merge_loc_compare.py lines 74-125: one output row per
CDL row; the consumed set records every matched GITHUB index but never
influences the scan. -/
def mergeLocRows (rcols : List String) (rights : List (Nat × Row)) :
    List Row → List Nat → List Row × List Nat
  | [], consumed => ([], consumed)
  | lrow :: rest, consumed =>
    match locScan (getVal lrow "Table Field Name") (getVal lrow "EDL Tables") rights with
    | some (idx, r, label) =>
      let next := mergeLocRows rcols rights rest (idx :: consumed)
      ((lrow ++ prefixedCols rcols r ++ [("Match_Type", some label)]) :: next.1, next.2)
    | none =>
      let next := mergeLocRows rcols rights rest consumed
      ((lrow ++ [("Match_Type", some locNoMatch)]) :: next.1, next.2)

/-- merge_loc_compare.py lines 129-153: unmatched GITHUB rows in ascending
index order, with empty CDL columns, prefixed GITHUB columns and the
Unmatched_GITHUB label. -/
def locUnmatchedRights (lcols rcols : List String) (rights : List (Nat × Row))
    (consumed : List Nat) : List Row :=
  (rights.filter (fun p => decide (p.1 ∉ consumed))).map
    (fun p => emptyLeftCols lcols ++ prefixedCols rcols p.2
      ++ [("Match_Type", some locUnmatchedRight)])

/-- The record-processing core of merge_loc_compare.py lines 66-156, before
the purely presentational column reordering of lines 158-162. -/
def merge_loc_core (lcols rcols : List String) (lrows rrows : List Row) : List Row :=
  let run := mergeLocRows rcols rrows.enum lrows []
  run.1 ++ locUnmatchedRights lcols rcols rrows.enum run.2

/-! ## compare_sheets.py

Many-to-many matching with no consumption: every (CDL row, GITHUB row)
pair whose keys compare equal appends its own combined record, and the
matched CDL / GITHUB index sets only determine the separate unmatched
output (lines 46-138). -/

def csBoth : String := "Both_Matches"

def csLabel1 : String := "CDL_Column_I_matches_GITHUB_Column_C"

def csLabel2 : String := "CDL_Column_K_matches_GITHUB_Column_D"

/-- The per-pair match type of compare_sheets.py lines 64-77: Column I
against cdm_column, Column K against pdm_column, upgraded to Both_Matches
when both hold; `none` when neither does. -/
def csMatchType (vi vk : Value) (r : Row) : Option String :=
  let m1 := values_match vi (getVal r "cdm_column")
  let m2 := values_match vk (getVal r "pdm_column")
  if m1 && m2 then some csBoth
  else if m1 then some csLabel1
  else if m2 then some csLabel2
  else none

/-- The combined record of compare_sheets.py lines 80-99: a fixed
selection of named CDL and GITHUB fields under new names, led by the
match type. -/
def csRecord (mt : String) (l r : Row) : Row :=
  [("Match_Type", some mt),
   ("CDL_Source_System", getVal l "Source System"),
   ("CDL_Table", getVal l "CDL Table"),
   ("CDL_Column", getVal l "CDL Column"),
   ("CDL_Source_Table", getVal l "Source Table"),
   ("CDL_Source_Column", getVal l "Source Column"),
   ("CDL_Join_Logic", getVal l "Join Logic"),
   ("CDL_Transformation", getVal l "Transformation"),
   ("CDL_Current_Outcome", getVal l "Current Outcome"),
   ("CDL_Table_Field_Name", getVal l "Table Field Name"),
   ("CDL_Definition", getVal l "Definition"),
   ("CDL_Biz_Name", getVal l "Biz Name"),
   ("GITHUB_d365_source", getVal r "d365_source"),
   ("GITHUB_d365_table", getVal r "d365_table"),
   ("GITHUB_cdm_column", getVal r "cdm_column"),
   ("GITHUB_pdm_column", getVal r "pdm_column")]

/-- State threaded through compare_sheets.py lines 46-102: the matched
records in append order, the matched CDL indices, and the matched GITHUB
indices. -/
structure CsState where
  records : List Row
  cdl : List Nat
  github : List Nat
deriving DecidableEq

/-- The inner loop of compare_sheets.py lines 60-102 for one CDL row:
append one combined record per matching GITHUB row and record both
indices. -/
def csInnerLoop (lidx : Nat) (lrow : Row) (st : CsState) :
    List (Nat × Row) → CsState
  | [] => st
  | (ridx, r) :: rest =>
    match csMatchType (getVal lrow "Table Field Name") (getVal lrow "Biz Name") r with
    | some mt =>
      csInnerLoop lidx lrow
        ⟨st.records ++ [csRecord mt lrow r], lidx :: st.cdl, ridx :: st.github⟩ rest
    | none => csInnerLoop lidx lrow st rest

/-- The outer loop of compare_sheets.py lines 51-102: CDL rows whose two
key cells are both NaN are skipped outright (line 56). -/
def csOuterLoop (rights : List (Nat × Row)) :
    List (Nat × Row) → CsState → CsState
  | [], st => st
  | (lidx, l) :: rest, st =>
    if (getVal l "Table Field Name").isNone && (getVal l "Biz Name").isNone then
      csOuterLoop rights rest st
    else
      csOuterLoop rights rest (csInnerLoop lidx l st rights)

/-- The matching core of compare_sheets.py lines 46-102. -/
def compare_sheets_core (lrows rrows : List Row) : CsState :=
  csOuterLoop rrows.enum lrows.enum ⟨[], [], []⟩

/-- The matched-records output sheet of compare_sheets.py. -/
def compare_sheets_matched (lrows rrows : List Row) : List Row :=
  (compare_sheets_core lrows rrows).records

/-- The Unmatched_GITHUB sheet of compare_sheets.py lines 122-138: GITHUB
rows whose index was never matched, with their original unprefixed columns
and no classification column.  The source iterates `list(set(...))`, whose
order is a Python set-iteration detail; it is determinised here as the
ascending index order. -/
def csUnmatchedGithub (lrows rrows : List Row) : List Row :=
  (rrows.enum.filter
    (fun p => decide (p.1 ∉ (compare_sheets_core lrows rrows).github))).map (·.2)

/-- The Unmatched_CDL sheet of compare_sheets.py lines 121-133, determinised
in the same way. -/
def csUnmatchedCdl (lrows rrows : List Row) : List Row :=
  (lrows.enum.filter
    (fun p => decide (p.1 ∉ (compare_sheets_core lrows rrows).cdl))).map (·.2)

/-- compare_sheets.py lines 40-44 followed by the core: the two combined
required-column checks run before any row is scanned. -/
def compare_sheets (lcols rcols : List String) (lrows rrows : List Row) :
    Except String CsState :=
  if "Table Field Name" ∉ lcols ∨ "Biz Name" ∉ lcols then
    .error "CDL sheet must contain columns Table Field Name and Biz Name"
  else if "cdm_column" ∉ rcols ∨ "pdm_column" ∉ rcols then
    .error "GITHUB sheet must contain columns cdm_column and pdm_column"
  else
    .ok (compare_sheets_core lrows rrows)

/-! ## Helper lemmas about the merge_cust_compare loops -/

theorem custScan_found_not_mem {consumed : List Nat} {vi vk : Value}
    {rs : List (Nat × Row)} {idx : Nat} {r : Row} {c : String}
    (h : custScan consumed vi vk rs = .found idx r c) : idx ∉ consumed := by
  induction rs with
  | nil => simp [custScan] at h
  | cons p rest ih =>
    obtain ⟨i, row⟩ := p
    simp only [custScan] at h
    split at h
    · split at h
      · exact absurd h (by simp)
      · cases h; assumption
    · split at h
      · split at h
        · exact absurd h (by simp)
        · cases h; assumption
      · exact ih h

theorem custScan_found_mem {consumed : List Nat} {vi vk : Value}
    {rs : List (Nat × Row)} {idx : Nat} {r : Row} {c : String}
    (h : custScan consumed vi vk rs = .found idx r c) : (idx, r) ∈ rs := by
  induction rs with
  | nil => simp [custScan] at h
  | cons p rest ih =>
    obtain ⟨i, row⟩ := p
    simp only [custScan] at h
    split at h
    · split at h
      · exact absurd h (by simp)
      · cases h; exact List.mem_cons_self _ _
    · split at h
      · split at h
        · exact absurd h (by simp)
        · cases h; exact List.mem_cons_self _ _
      · exact List.mem_cons_of_mem _ (ih h)

theorem custScan_dup_comment {consumed : List Nat} {vi vk : Value}
    {rs : List (Nat × Row)} {c : String}
    (h : custScan consumed vi vk rs = .dup c) : c = custDup1 ∨ c = custDup2 := by
  induction rs with
  | nil => simp [custScan] at h
  | cons p rest ih =>
    obtain ⟨i, row⟩ := p
    simp only [custScan] at h
    split at h
    · split at h
      · cases h; exact Or.inl rfl
      · exact absurd h (by simp)
    · split at h
      · split at h
        · cases h; exact Or.inr rfl
        · exact absurd h (by simp)
      · exact ih h

theorem mergeCustRows_length (rcols : List String) (rights : List (Nat × Row))
    (lrows : List Row) (consumed : List Nat) :
    (mergeCustRows rcols rights lrows consumed).1.length = lrows.length := by
  induction lrows generalizing consumed with
  | nil => rfl
  | cons lrow rest ih =>
    simp only [mergeCustRows]
    split <;> simp [ih]

theorem mergeCustRows_nodup (rcols : List String) (rights : List (Nat × Row))
    (lrows : List Row) (consumed : List Nat) (h : consumed.Nodup) :
    (mergeCustRows rcols rights lrows consumed).2.Nodup := by
  induction lrows generalizing consumed with
  | nil => exact h
  | cons lrow rest ih =>
    simp only [mergeCustRows]
    split
    · next idx r c heq =>
      exact ih _ (List.Nodup.cons (custScan_found_not_mem heq) h)
    · exact ih _ h
    · exact ih _ h

theorem mergeCustRows_mem_snd (rcols : List String) (rights : List (Nat × Row))
    (lrows : List Row) (consumed : List Nat) (i : Nat)
    (h : i ∈ (mergeCustRows rcols rights lrows consumed).2) :
    i ∈ consumed ∨ i ∈ rights.map Prod.fst := by
  induction lrows generalizing consumed with
  | nil => exact Or.inl h
  | cons lrow rest ih =>
    simp only [mergeCustRows] at h
    split at h
    · next idx r c heq =>
      rcases ih _ h with hm | hm
      · rcases List.mem_cons.mp hm with h1 | h1
        · subst h1
          exact Or.inr (List.mem_map_of_mem Prod.fst (custScan_found_mem heq))
        · exact Or.inl h1
      · exact Or.inr hm
    · exact ih _ h
    · exact ih _ h

theorem mergeCustRows_get? (rcols : List String) (rights : List (Nat × Row))
    (lrows : List Row) (consumed : List Nat) (k : Nat) (lrow : Row)
    (h : lrows[k]? = some lrow) :
    ∃ t, (mergeCustRows rcols rights lrows consumed).1[k]? = some (lrow ++ t) := by
  induction lrows generalizing consumed k with
  | nil => simp at h
  | cons l rest ih =>
    cases k with
    | zero =>
      simp only [List.getElem?_cons_zero, Option.some.injEq] at h
      subst h
      simp only [mergeCustRows]
      split
      · next idx r c _ =>
        exact ⟨prefixedCols rcols r ++ [("Comments", some c)], by simp [List.append_assoc]⟩
      · next c _ =>
        exact ⟨emptyRightCols rcols ++ [("Comments", some c)], by simp [List.append_assoc]⟩
      · exact ⟨emptyRightCols rcols ++ [("Comments", some custNoMatchLeft)],
          by simp [List.append_assoc]⟩
    | succ k =>
      simp only [List.getElem?_cons_succ] at h
      simp only [mergeCustRows]
      split
      · simpa using ih _ _ h
      · simpa using ih _ _ h
      · simpa using ih _ _ h

/-! ## Helper lemmas: counting, ordering and lookups -/

theorem length_filter_not_mem_range (R : Nat) (consumed : List Nat)
    (hnd : consumed.Nodup) (hlt : ∀ i ∈ consumed, i < R) :
    ((List.range R).filter (fun i => decide (i ∉ consumed))).length
      = R - consumed.length := by
  have hperm : List.Perm ((List.range R).filter (fun i => decide (i ∈ consumed))) consumed := by
    rw [List.perm_ext_iff_of_nodup (List.Nodup.filter _ (List.nodup_range R)) hnd]
    intro a
    simp only [List.mem_filter, List.mem_range, decide_eq_true_eq]
    exact ⟨fun h => h.2, fun h => ⟨hlt a h, h⟩⟩
  have hlen : ((List.range R).filter (fun i => decide (i ∈ consumed))).length
      = consumed.length := hperm.length_eq
  have hsplit := List.length_eq_length_filter_add
    (l := List.range R) (fun i => decide (i ∈ consumed))
  have hfun : (fun i => !decide (i ∈ consumed)) = (fun i => decide (i ∉ consumed)) := by
    funext i
    simp [decide_not]
  rw [List.length_range, hlen] at hsplit
  rw [← hfun]
  omega

theorem length_filter_fst_enum (rrows : List Row) (consumed : List Nat) :
    (rrows.enum.filter (fun p => decide (p.1 ∉ consumed))).length
      = ((List.range rrows.length).filter (fun i => decide (i ∉ consumed))).length := by
  have h := List.filter_map (p := fun i => decide (i ∉ consumed))
    (f := Prod.fst (α := Nat) (β := Row)) rrows.enum
  rw [List.enum_map_fst] at h
  have : (fun p : Nat × Row => decide (p.1 ∉ consumed))
      = ((fun i => decide (i ∉ consumed)) ∘ Prod.fst) := rfl
  rw [h, List.length_map, ← this]

theorem pairwise_fst_lt_enumFrom {α : Type _} (n : Nat) (l : List α) :
    (l.enumFrom n).Pairwise (fun a b => a.1 < b.1) := by
  induction l generalizing n with
  | nil => exact List.Pairwise.nil
  | cons x xs ih =>
    refine List.Pairwise.cons ?_ (ih (n + 1))
    intro p hp
    have : n + 1 ≤ p.1 := by
      clear ih
      induction xs generalizing n with
      | nil => simp [List.enumFrom] at hp
      | cons y ys ih2 =>
        rcases List.mem_cons.mp hp with h | h
        · subst h; exact Nat.le_refl _
        · exact Nat.le_trans (Nat.le_succ _) (ih2 _ h)
    omega

theorem pairwise_fst_lt_enum {α : Type _} (l : List α) :
    l.enum.Pairwise (fun a b => a.1 < b.1) :=
  pairwise_fst_lt_enumFrom 0 l

/-- Appending the GITHUB_ prefix is injective on column names. -/
theorem github_prefixed_injective {a b : String}
    (h : "GITHUB_" ++ a = "GITHUB_" ++ b) : a = b := by
  have hd : ("GITHUB_" ++ a).data = ("GITHUB_" ++ b).data := by rw [h]
  rw [String.data_append, String.data_append] at hd
  exact String.ext (List.append_cancel_left hd)

theorem lookup_emptyLeftCols {lcols : List String} {c : String} (h : c ∈ lcols) :
    List.lookup c (emptyLeftCols lcols) = some none := by
  induction lcols with
  | nil => simp at h
  | cons x xs ih =>
    rcases List.mem_cons.mp h with h1 | h1
    · subst h1
      simp [emptyLeftCols, List.lookup]
    · by_cases hx : c = x
      · subst hx
        simp [emptyLeftCols, List.lookup]
      · have hbeq : (c == x) = false := beq_eq_false_iff_ne.mpr hx
        simp only [emptyLeftCols, List.map_cons, List.lookup, hbeq]
        exact ih h1

theorem lookup_emptyLeftCols_not_mem {lcols : List String} {c : String} (h : c ∉ lcols) :
    List.lookup c (emptyLeftCols lcols) = none := by
  induction lcols with
  | nil => rfl
  | cons x xs ih =>
    have hbeq : (c == x) = false :=
      beq_eq_false_iff_ne.mpr (fun hx => h (hx ▸ List.mem_cons_self x xs))
    simp only [emptyLeftCols, List.map_cons, List.lookup, hbeq]
    exact ih (fun hm => h (List.mem_cons_of_mem _ hm))

theorem lookup_prefixedCols {rcols : List String} {r : Row} {c : String} (h : c ∈ rcols) :
    List.lookup ("GITHUB_" ++ c) (prefixedCols rcols r) = some (getVal r c) := by
  induction rcols with
  | nil => simp at h
  | cons x xs ih =>
    rcases List.mem_cons.mp h with h1 | h1
    · subst h1
      simp [prefixedCols, List.lookup]
    · by_cases hx : c = x
      · subst hx
        simp [prefixedCols, List.lookup]
      · have hbeq : ("GITHUB_" ++ c == "GITHUB_" ++ x) = false :=
          beq_eq_false_iff_ne.mpr (fun he => hx (github_prefixed_injective he))
        simp only [prefixedCols, List.map_cons, List.lookup, hbeq]
        exact ih h1

theorem lookup_prefixedCols_unprefixed {rcols : List String} {r : Row} {c : String}
    (h : ∀ x : String, c ≠ "GITHUB_" ++ x) :
    List.lookup c (prefixedCols rcols r) = none := by
  induction rcols with
  | nil => rfl
  | cons x xs ih =>
    have hbeq : (c == "GITHUB_" ++ x) = false := beq_eq_false_iff_ne.mpr (h x)
    simp only [prefixedCols, List.map_cons, List.lookup, hbeq]
    exact ih

/-- No GITHUB_-prefixed column name equals the Comments column name. -/
theorem comments_not_prefixed (c : String) : "Comments" ≠ "GITHUB_" ++ c := by
  intro h
  have hd : ("Comments").data = ("GITHUB_" ++ c).data := by rw [h]
  rw [String.data_append] at hd
  have h1 : ("Comments").data = 'C' :: "omments".data := rfl
  have h2 : ("GITHUB_").data = 'G' :: "ITHUB_".data := rfl
  rw [h1, h2] at hd
  simp at hd

/-- C2, counterexample: in merge_cust_compare, take CDL rows L1 (Table Field
Name B) and L2 (Table Field Name A, Biz Name b) and GITHUB rows R1
(cdm_column A, tag r1) and R2 (cdm_column B, pdm_column b, tag r2).  L1
consumes R2.  L2 has a key value (Biz Name b) comparing equal to the
consumed R2 (pdm_column b), yet L2 is classified as Matched on Column I and
consumes R1 - not classified Duplicate, and it does consume another right
record, contradicting the claim. -/
theorem C2_counterexample :
    values_match (some "b") (some "b") = true
    ∧ (merge_cust_core ["Table Field Name", "Biz Name"]
          ["cdm_column", "pdm_column", "tag"]
          [[("Table Field Name", some "B"), ("Biz Name", none)],
           [("Table Field Name", some "A"), ("Biz Name", some "b")]]
          [[("cdm_column", some "A"), ("pdm_column", none), ("tag", some "r1")],
           [("cdm_column", some "B"), ("pdm_column", some "b"), ("tag", some "r2")]]).map
        (fun r => (getVal r "GITHUB_tag", getVal r "Comments"))
      = [(some "r2", some custComment1), (some "r1", some custComment1)] := by
  exact ⟨by decide, by decide⟩

/-- C2, amended: in merge_cust_compare (the duplicate-flagging one-to-one
variant), a left record whose scan hits an already-consumed right record
first is classified with one of the two Duplicated comments, its right
fields are all empty, and the remaining left records are processed with the
consumed set unchanged, so it consumes no right record; the consumed
index set stays duplicate-free, so a right record consumed once never
produces a second matched output row.  (A left record whose scan reaches a
fresh right record first is still classified Matched even when another of
its key values equals a consumed right record, and merge_vend_compare skips
consumed right records silently instead of flagging a Duplicate.) -/
theorem C2_duplicate_policy (rcols : List String) (rights : List (Nat × Row))
    (lrows : List Row) (consumed : List Nat) (lrow : Row) (c : String)
    (hnd : consumed.Nodup)
    (hscan : custScan consumed (getVal lrow "Table Field Name")
        (getVal lrow "Biz Name") rights = .dup c) :
    (c = custDup1 ∨ c = custDup2)
    ∧ (mergeCustRows rcols rights (lrow :: lrows) consumed).1
        = (lrow ++ emptyRightCols rcols ++ [("Comments", some c)])
            :: (mergeCustRows rcols rights lrows consumed).1
    ∧ (mergeCustRows rcols rights (lrow :: lrows) consumed).2.Nodup := by
  refine ⟨custScan_dup_comment hscan, ?_, ?_⟩
  · simp only [mergeCustRows, hscan]
  · simp only [mergeCustRows, hscan]
    exact mergeCustRows_nodup _ _ _ _ hnd

/-- Witness for C2_duplicate_policy: scenario 3 of the specification, left
records A and B with key x, one right record with key X, after A has
consumed right index 0. -/
theorem C2_duplicate_policy_witness :
    ([0] : List Nat).Nodup
    ∧ custScan [0] (getVal [("Table Field Name", some "x"), ("Biz Name", none)] "Table Field Name")
        (getVal [("Table Field Name", some "x"), ("Biz Name", none)] "Biz Name")
        [(0, [("cdm_column", some "X")])] = .dup custDup1
    ∧ ((custDup1 = custDup1 ∨ custDup1 = custDup2)
       ∧ (mergeCustRows ["cdm_column"] [(0, [("cdm_column", some "X")])]
            ([("Table Field Name", some "x"), ("Biz Name", none)] :: []) [0]).1
          = ([("Table Field Name", some "x"), ("Biz Name", none)]
              ++ emptyRightCols ["cdm_column"] ++ [("Comments", some custDup1)])
            :: (mergeCustRows ["cdm_column"] [(0, [("cdm_column", some "X")])] [] [0]).1
       ∧ (mergeCustRows ["cdm_column"] [(0, [("cdm_column", some "X")])]
            ([("Table Field Name", some "x"), ("Biz Name", none)] :: []) [0]).2.Nodup) := by
  refine ⟨by decide, by decide, ?_⟩
  exact C2_duplicate_policy ["cdm_column"] [(0, [("cdm_column", some "X")])] []
    [0] [("Table Field Name", some "x"), ("Biz Name", none)] custDup1 (by decide) (by decide)

/-- C10: in merge_cust_compare, processing a left record whose scan flags a
duplicate (its first hit is an already-consumed right record) leaves the
consumed right-index set unchanged: right after that left record it equals
the set before it, and the whole remaining run therefore also produces the
same final consumed set as if the duplicate left record were processed with
the untouched set. -/
theorem C10_duplicate_frame (rcols : List String) (rights : List (Nat × Row))
    (lrows : List Row) (consumed : List Nat) (lrow : Row) (c : String)
    (hscan : custScan consumed (getVal lrow "Table Field Name")
        (getVal lrow "Biz Name") rights = .dup c) :
    (mergeCustRows rcols rights [lrow] consumed).2 = consumed
    ∧ (mergeCustRows rcols rights (lrow :: lrows) consumed).2
        = (mergeCustRows rcols rights lrows consumed).2 := by
  constructor
  · simp only [mergeCustRows, hscan]
  · simp only [mergeCustRows, hscan]

/-- Witness for C10_duplicate_frame at a concrete duplicated input. -/
theorem C10_duplicate_frame_witness :
    custScan [0] (getVal [("Table Field Name", some "x")] "Table Field Name")
        (getVal [("Table Field Name", some "x")] "Biz Name")
        [(0, [("cdm_column", some "x")])] = .dup custDup1
    ∧ ((mergeCustRows [] [(0, [("cdm_column", some "x")])]
          [[("Table Field Name", some "x")]] [0]).2 = [0]
       ∧ (mergeCustRows [] [(0, [("cdm_column", some "x")])]
            ([("Table Field Name", some "x")] :: [[("Table Field Name", some "y")]]) [0]).2
          = (mergeCustRows [] [(0, [("cdm_column", some "x")])]
              [[("Table Field Name", some "y")]] [0]).2) := by
  refine ⟨by decide, ?_⟩
  exact C10_duplicate_frame [] [(0, [("cdm_column", some "x")])]
    [[("Table Field Name", some "y")]] [0] [("Table Field Name", some "x")] custDup1 (by decide)

/-! ## Row counting (claim C4) -/

/-- One left-right pair satisfies the merge_cust_compare key comparison. -/
def custPairMatch (l r : Row) : Bool :=
  values_match (getVal l "Table Field Name") (getVal r "cdm_column")
    || values_match (getVal l "Biz Name") (getVal r "pdm_column")

/-- One left-right pair satisfies the merge_sheets key comparison. -/
def sheetsPairMatch (l r : Row) : Bool :=
  values_match (getVal l "Table Field Name") (getVal r "cdm_column")
    || values_match (getVal l "c") (getVal r "pdm_column")

theorem custUnmatchedRights_length (lcols rcols : List String) (rrows : List Row)
    (consumed : List Nat) (hnd : consumed.Nodup)
    (hsub : ∀ i ∈ consumed, i ∈ rrows.enum.map Prod.fst) :
    (custUnmatchedRights lcols rcols rrows.enum consumed).length
      = rrows.length - consumed.length := by
  have hlt : ∀ i ∈ consumed, i < rrows.length := by
    intro i hi
    have := hsub i hi
    rw [List.enum_map_fst] at this
    exact List.mem_range.mp this
  unfold custUnmatchedRights
  rw [List.length_map, length_filter_fst_enum, length_filter_not_mem_range _ _ hnd hlt]

theorem custScan_all_false {consumed : List Nat} {vi vk : Value} {rs : List (Nat × Row)}
    (h : ∀ p ∈ rs, values_match vi (getVal p.2 "cdm_column") = false
        ∧ values_match vk (getVal p.2 "pdm_column") = false) :
    custScan consumed vi vk rs = .nomatch := by
  induction rs with
  | nil => rfl
  | cons p rest ih =>
    obtain ⟨i, row⟩ := p
    have hp := h (i, row) (List.mem_cons_self _ _)
    simp only [custScan, hp.1, hp.2]
    simp only [Bool.false_eq_true, if_false]
    exact ih (fun q hq => h q (List.mem_cons_of_mem _ hq))

theorem mergeCustRows_snd_no_match {rcols : List String} {rights : List (Nat × Row)}
    {lrows : List Row} {consumed : List Nat}
    (h : ∀ l ∈ lrows, ∀ p ∈ rights, custPairMatch l p.2 = false) :
    (mergeCustRows rcols rights lrows consumed).2 = consumed := by
  induction lrows generalizing consumed with
  | nil => rfl
  | cons lrow rest ih =>
    have hscan : custScan consumed (getVal lrow "Table Field Name")
        (getVal lrow "Biz Name") rights = .nomatch := by
      apply custScan_all_false
      intro p hp
      have := h lrow (List.mem_cons_self _ _) p hp
      simp only [custPairMatch, Bool.or_eq_false_iff] at this
      exact this
    simp only [mergeCustRows, hscan]
    exact ih (fun l hl => h l (List.mem_cons_of_mem _ hl))

theorem sheetsScan_found_not_mem {consumed : List Nat} {vi vm : Value}
    {rs : List (Nat × Row)} {idx : Nat} {r : Row}
    (h : sheetsScan consumed vi vm rs = some (idx, r)) : idx ∉ consumed := by
  induction rs with
  | nil => simp [sheetsScan] at h
  | cons p rest ih =>
    obtain ⟨i, row⟩ := p
    simp only [sheetsScan] at h
    split at h
    · exact ih h
    · split at h
      · cases h; assumption
      · exact ih h

theorem sheetsScan_found_mem {consumed : List Nat} {vi vm : Value}
    {rs : List (Nat × Row)} {idx : Nat} {r : Row}
    (h : sheetsScan consumed vi vm rs = some (idx, r)) : (idx, r) ∈ rs := by
  induction rs with
  | nil => simp [sheetsScan] at h
  | cons p rest ih =>
    obtain ⟨i, row⟩ := p
    simp only [sheetsScan] at h
    split at h
    · exact List.mem_cons_of_mem _ (ih h)
    · split at h
      · cases h; exact List.mem_cons_self _ _
      · exact List.mem_cons_of_mem _ (ih h)

theorem mergeSheetsRows_length (rcols : List String) (rights : List (Nat × Row))
    (lrows : List Row) (consumed : List Nat) :
    (mergeSheetsRows rcols rights lrows consumed).1.length = lrows.length := by
  induction lrows generalizing consumed with
  | nil => rfl
  | cons lrow rest ih =>
    simp only [mergeSheetsRows]
    split <;> simp [ih]

theorem mergeSheetsRows_nodup (rcols : List String) (rights : List (Nat × Row))
    (lrows : List Row) (consumed : List Nat) (h : consumed.Nodup) :
    (mergeSheetsRows rcols rights lrows consumed).2.Nodup := by
  induction lrows generalizing consumed with
  | nil => exact h
  | cons lrow rest ih =>
    simp only [mergeSheetsRows]
    split
    · next idx r heq =>
      exact ih _ (List.Nodup.cons (sheetsScan_found_not_mem heq) h)
    · exact ih _ h

theorem mergeSheetsRows_mem_snd (rcols : List String) (rights : List (Nat × Row))
    (lrows : List Row) (consumed : List Nat) (i : Nat)
    (h : i ∈ (mergeSheetsRows rcols rights lrows consumed).2) :
    i ∈ consumed ∨ i ∈ rights.map Prod.fst := by
  induction lrows generalizing consumed with
  | nil => exact Or.inl h
  | cons lrow rest ih =>
    simp only [mergeSheetsRows] at h
    split at h
    · next idx r heq =>
      rcases ih _ h with hm | hm
      · rcases List.mem_cons.mp hm with h1 | h1
        · subst h1
          exact Or.inr (List.mem_map_of_mem Prod.fst (sheetsScan_found_mem heq))
        · exact Or.inl h1
      · exact Or.inr hm
    · exact ih _ h

theorem sheetsUnmatchedRights_length (lcols rcols : List String) (rrows : List Row)
    (consumed : List Nat) (hnd : consumed.Nodup)
    (hsub : ∀ i ∈ consumed, i ∈ rrows.enum.map Prod.fst) :
    (sheetsUnmatchedRights lcols rcols rrows.enum consumed).length
      = rrows.length - consumed.length := by
  have hlt : ∀ i ∈ consumed, i < rrows.length := by
    intro i hi
    have := hsub i hi
    rw [List.enum_map_fst] at this
    exact List.mem_range.mp this
  unfold sheetsUnmatchedRights
  rw [List.length_map, length_filter_fst_enum, length_filter_not_mem_range _ _ hnd hlt]

theorem sheetsScan_all_false {consumed : List Nat} {vi vm : Value} {rs : List (Nat × Row)}
    (h : ∀ p ∈ rs, (values_match vi (getVal p.2 "cdm_column")
        || values_match vm (getVal p.2 "pdm_column")) = false) :
    sheetsScan consumed vi vm rs = none := by
  induction rs with
  | nil => rfl
  | cons p rest ih =>
    obtain ⟨i, row⟩ := p
    have hp := h (i, row) (List.mem_cons_self _ _)
    simp only [sheetsScan, hp]
    simp only [Bool.false_eq_true, if_false]
    have := ih (fun q hq => h q (List.mem_cons_of_mem _ hq))
    split
    · exact this
    · exact this

theorem mergeSheetsRows_snd_no_match {rcols : List String} {rights : List (Nat × Row)}
    {lrows : List Row} {consumed : List Nat}
    (h : ∀ l ∈ lrows, ∀ p ∈ rights, sheetsPairMatch l p.2 = false) :
    (mergeSheetsRows rcols rights lrows consumed).2 = consumed := by
  induction lrows generalizing consumed with
  | nil => rfl
  | cons lrow rest ih =>
    have hscan : sheetsScan consumed (getVal lrow "Table Field Name")
        (getVal lrow "c") rights = none := by
      apply sheetsScan_all_false
      intro p hp
      exact h lrow (List.mem_cons_self _ _) p hp
    simp only [mergeSheetsRows, hscan]
    exact ih (fun l hl => h l (List.mem_cons_of_mem _ hl))

/-- C4: the merged output row count equals the left row count plus the
count of right rows not consumed by any left row, for merge_cust_compare
and merge_sheets; in particular, when no left-right pair satisfies the key
comparison, the output row count is the left count plus the right count. -/
theorem C4_output_row_count (lcols rcols : List String) (lrows rrows : List Row) :
    ((merge_cust_core lcols rcols lrows rrows).length
        = lrows.length + (rrows.length - (custFinalConsumed rcols lrows rrows).length)
      ∧ ((∀ l ∈ lrows, ∀ r ∈ rrows, custPairMatch l r = false) →
          (merge_cust_core lcols rcols lrows rrows).length
            = lrows.length + rrows.length))
    ∧ ((merge_sheets_core lcols rcols lrows rrows).length
        = lrows.length + (rrows.length - (mergeSheetsRows rcols rrows.enum lrows []).2.length)
      ∧ ((∀ l ∈ lrows, ∀ r ∈ rrows, sheetsPairMatch l r = false) →
          (merge_sheets_core lcols rcols lrows rrows).length
            = lrows.length + rrows.length)) := by
  have hcnd : (mergeCustRows rcols rrows.enum lrows []).2.Nodup :=
    mergeCustRows_nodup _ _ _ _ List.nodup_nil
  have hcsub : ∀ i ∈ (mergeCustRows rcols rrows.enum lrows []).2,
      i ∈ rrows.enum.map Prod.fst := by
    intro i hi
    rcases mergeCustRows_mem_snd rcols rrows.enum lrows [] i hi with h | h
    · simp at h
    · exact h
  have hclen : (merge_cust_core lcols rcols lrows rrows).length
      = lrows.length + (rrows.length - (custFinalConsumed rcols lrows rrows).length) := by
    unfold merge_cust_core custFinalConsumed
    rw [List.length_append, mergeCustRows_length,
      custUnmatchedRights_length _ _ _ _ hcnd hcsub]
  have hsnd : (mergeSheetsRows rcols rrows.enum lrows []).2.Nodup :=
    mergeSheetsRows_nodup _ _ _ _ List.nodup_nil
  have hssub : ∀ i ∈ (mergeSheetsRows rcols rrows.enum lrows []).2,
      i ∈ rrows.enum.map Prod.fst := by
    intro i hi
    rcases mergeSheetsRows_mem_snd rcols rrows.enum lrows [] i hi with h | h
    · simp at h
    · exact h
  have hslen : (merge_sheets_core lcols rcols lrows rrows).length
      = lrows.length + (rrows.length - (mergeSheetsRows rcols rrows.enum lrows []).2.length) := by
    unfold merge_sheets_core
    rw [List.length_append, mergeSheetsRows_length,
      sheetsUnmatchedRights_length _ _ _ _ hsnd hssub]
  refine ⟨⟨hclen, ?_⟩, hslen, ?_⟩
  · intro h
    have hempty : (mergeCustRows rcols rrows.enum lrows []).2 = [] := by
      apply mergeCustRows_snd_no_match
      intro l hl p hp
      have hmem : p.2 ∈ rrows := by
        have := List.mem_map_of_mem Prod.snd hp
        rwa [List.enum_map_snd] at this
      exact h l hl p.2 hmem
    rw [hclen]
    unfold custFinalConsumed
    rw [hempty]
    simp
  · intro h
    have hempty : (mergeSheetsRows rcols rrows.enum lrows []).2 = [] := by
      apply mergeSheetsRows_snd_no_match
      intro l hl p hp
      have hmem : p.2 ∈ rrows := by
        have := List.mem_map_of_mem Prod.snd hp
        rwa [List.enum_map_snd] at this
      exact h l hl p.2 hmem
    rw [hslen, hempty]
    simp

/-- Witness for C4_output_row_count on disjoint one-row inputs: no pair
matches, and both variants output one left row plus one unmatched right
row. -/
theorem C4_output_row_count_witness :
    (∀ l ∈ [[("Table Field Name", some "x"), ("Biz Name", (none : Value)), ("c", none)]],
      ∀ r ∈ [[("cdm_column", some "z"), ("pdm_column", (none : Value))]],
        custPairMatch l r = false)
    ∧ (∀ l ∈ [[("Table Field Name", some "x"), ("Biz Name", (none : Value)), ("c", none)]],
      ∀ r ∈ [[("cdm_column", some "z"), ("pdm_column", (none : Value))]],
        sheetsPairMatch l r = false)
    ∧ (merge_cust_core ["Table Field Name", "Biz Name", "c"] ["cdm_column", "pdm_column"]
        [[("Table Field Name", some "x"), ("Biz Name", none), ("c", none)]]
        [[("cdm_column", some "z"), ("pdm_column", none)]]).length = 2
    ∧ (merge_sheets_core ["Table Field Name", "Biz Name", "c"] ["cdm_column", "pdm_column"]
        [[("Table Field Name", some "x"), ("Biz Name", none), ("c", none)]]
        [[("cdm_column", some "z"), ("pdm_column", none)]]).length = 2 := by
  refine ⟨by decide, by decide, ?_, ?_⟩
  · exact (C4_output_row_count ["Table Field Name", "Biz Name", "c"]
      ["cdm_column", "pdm_column"]
      [[("Table Field Name", some "x"), ("Biz Name", none), ("c", none)]]
      [[("cdm_column", some "z"), ("pdm_column", none)]]).1.2 (by decide)
  · exact (C4_output_row_count ["Table Field Name", "Biz Name", "c"]
      ["cdm_column", "pdm_column"]
      [[("Table Field Name", some "x"), ("Biz Name", none), ("c", none)]]
      [[("cdm_column", some "z"), ("pdm_column", none)]]).2.2 (by decide)

/-! ## First-hit selection (claim C3) -/

theorem locScan_first_hit {vi vk : Value} {rs : List (Nat × Row)} {j : Nat}
    {r : Row} {mt : String} (h : locScan vi vk rs = some (j, r, mt)) :
    ∃ pre post, rs = pre ++ (j, r) :: post
      ∧ (∀ p ∈ pre, locMatches vi vk p.2 = false)
      ∧ locMatches vi vk r = true
      ∧ mt = locLabel (values_match vi (getVal r "cdm_column"))
          (values_match vk (getVal r "pdm_column")) := by
  induction rs with
  | nil => simp [locScan] at h
  | cons p rest ih =>
    obtain ⟨i, row⟩ := p
    simp only [locScan] at h
    split at h
    · next hcond =>
      rw [Option.some.injEq, Prod.mk.injEq, Prod.mk.injEq] at h
      obtain ⟨rfl, rfl, rfl⟩ := h
      exact ⟨[], rest, rfl, by simp, by simpa [locMatches] using hcond, rfl⟩
    · next hcond =>
      obtain ⟨pre, post, heq, hpre, hr, hmt⟩ := ih h
      refine ⟨(i, row) :: pre, post, by rw [heq]; rfl, ?_, hr, hmt⟩
      intro q hq
      rcases List.mem_cons.mp hq with h1 | h1
      · subst h1
        simpa [locMatches] using hcond
      · exact hpre q h1

theorem locScan_enumFrom_first_hit {vi vk : Value} (n : Nat) (rrows : List Row)
    {j : Nat} {r : Row} {mt : String}
    (h : locScan vi vk (List.enumFrom n rrows) = some (j, r, mt)) :
    n ≤ j ∧ rrows[j - n]? = some r ∧ locMatches vi vk r = true
      ∧ (∀ i ri, n ≤ i → i < j → rrows[i - n]? = some ri →
          locMatches vi vk ri = false) := by
  induction rrows generalizing n with
  | nil => simp [List.enumFrom, locScan] at h
  | cons x xs ih =>
    simp only [List.enumFrom, locScan] at h
    split at h
    · next hcond =>
      rw [Option.some.injEq, Prod.mk.injEq, Prod.mk.injEq] at h
      obtain ⟨rfl, rfl, rfl⟩ := h
      refine ⟨Nat.le_refl _, ?_, by simpa [locMatches] using hcond, ?_⟩
      · simp [Nat.sub_self]
      · intro i ri hni hij
        exact absurd hij (by omega)
    · next hcond =>
      obtain ⟨hnj, hget, hmatch, hbefore⟩ := ih (n + 1) h
      refine ⟨by omega, ?_, hmatch, ?_⟩
      · have hsub : j - n = (j - (n + 1)) + 1 := by omega
        rw [hsub, List.getElem?_cons_succ]
        exact hget
      · intro i ri hni hij hgeti
        by_cases hin : i = n
        · subst hin
          rw [Nat.sub_self, List.getElem?_cons_zero, Option.some.injEq] at hgeti
          subst hgeti
          simpa [locMatches] using hcond
        · have h1 : i - n = (i - (n + 1)) + 1 := by omega
          rw [h1, List.getElem?_cons_succ] at hgeti
          exact hbefore i ri (by omega) hij hgeti

theorem sheetsScan_enumFrom_first_hit {consumed : List Nat} {vi vm : Value}
    (n : Nat) (rrows : List Row) {j : Nat} {r : Row}
    (h : sheetsScan consumed vi vm (List.enumFrom n rrows) = some (j, r)) :
    n ≤ j ∧ rrows[j - n]? = some r ∧ j ∉ consumed
      ∧ (values_match vi (getVal r "cdm_column")
          || values_match vm (getVal r "pdm_column")) = true
      ∧ (∀ i ri, n ≤ i → i < j → rrows[i - n]? = some ri →
          i ∈ consumed ∨ (values_match vi (getVal ri "cdm_column")
            || values_match vm (getVal ri "pdm_column")) = false) := by
  induction rrows generalizing n with
  | nil => simp [List.enumFrom, sheetsScan] at h
  | cons x xs ih =>
    simp only [List.enumFrom, sheetsScan] at h
    split at h
    · next hmem =>
      obtain ⟨hnj, hget, hnc, hmatch, hbefore⟩ := ih (n + 1) h
      refine ⟨by omega, ?_, hnc, hmatch, ?_⟩
      · have hsub : j - n = (j - (n + 1)) + 1 := by omega
        rw [hsub, List.getElem?_cons_succ]
        exact hget
      · intro i ri hni hij hgeti
        by_cases hin : i = n
        · subst hin
          exact Or.inl hmem
        · have h1 : i - n = (i - (n + 1)) + 1 := by omega
          rw [h1, List.getElem?_cons_succ] at hgeti
          exact hbefore i ri (by omega) hij hgeti
    · next hmem =>
      split at h
      · next hcond =>
        rw [Option.some.injEq, Prod.mk.injEq] at h
        obtain ⟨rfl, rfl⟩ := h
        refine ⟨Nat.le_refl _, ?_, hmem, hcond, ?_⟩
        · simp [Nat.sub_self]
        · intro i ri hni hij
          exact absurd hij (by omega)
      · next hcond =>
        obtain ⟨hnj, hget, hnc, hmatch, hbefore⟩ := ih (n + 1) h
        refine ⟨by omega, ?_, hnc, hmatch, ?_⟩
        · have hsub : j - n = (j - (n + 1)) + 1 := by omega
          rw [hsub, List.getElem?_cons_succ]
          exact hget
        · intro i ri hni hij hgeti
          by_cases hin : i = n
          · subst hin
            rw [Nat.sub_self, List.getElem?_cons_zero, Option.some.injEq] at hgeti
            subst hgeti
            exact Or.inr (by simpa using hcond)
          · have h1 : i - n = (i - (n + 1)) + 1 := by omega
            rw [h1, List.getElem?_cons_succ] at hgeti
            exact hbefore i ri (by omega) hij hgeti

/-- The row merge_loc_compare.py emits for one CDL row, fully determined by
that row's own scan of the GITHUB rows (the scan never consults the
consumed set). -/
def locEmit (rcols : List String) (rights : List (Nat × Row)) (lrow : Row) : Row :=
  match locScan (getVal lrow "Table Field Name") (getVal lrow "EDL Tables") rights with
  | some (_, r, label) => lrow ++ prefixedCols rcols r ++ [("Match_Type", some label)]
  | none => lrow ++ [("Match_Type", some locNoMatch)]

theorem mergeLocRows_fst_map (rcols : List String) (rights : List (Nat × Row))
    (lrows : List Row) (consumed : List Nat) :
    (mergeLocRows rcols rights lrows consumed).1 = lrows.map (locEmit rcols rights) := by
  induction lrows generalizing consumed with
  | nil => rfl
  | cons lrow rest ih =>
    simp only [mergeLocRows, List.map_cons]
    cases hscan : locScan (getVal lrow "Table Field Name")
        (getVal lrow "EDL Tables") rights with
    | none => simp only [locEmit, hscan, ih]
    | some t =>
      obtain ⟨idx, r, label⟩ := t
      simp only [locEmit, hscan, ih]

/-- C3, counterexample: in merge_sheets, both right rows (tags r1 and r2)
satisfy the key comparison against the second left row, and r1 appears
earliest in the right input order, yet the second left row is paired with
r2 because r1 was already consumed by the first left row - so the output
does not always pair a left record with the earliest satisfying right
record. -/
theorem C3_counterexample :
    values_match (some "x") (some "X") = true
    ∧ (merge_sheets_core ["Table Field Name", "c"] ["cdm_column", "pdm_column", "tag"]
        [[("Table Field Name", some "x"), ("c", none)],
         [("Table Field Name", some "x"), ("c", none)]]
        [[("cdm_column", some "X"), ("pdm_column", none), ("tag", some "r1")],
         [("cdm_column", some "X"), ("pdm_column", none), ("tag", some "r2")]]).map
        (fun r => getVal r "GITHUB_tag")
      = [some "r1", some "r2"] := by
  exact ⟨by decide, by decide⟩

/-- C3, amended: selection is first-hit, not best-match, but relative to the
scan each variant performs.  In merge_loc_compare the scan never skips, so
a left record is always paired with the right record of least input
position satisfying a key pair (every earlier right record fails both
pairs), and each output row is fully determined by that scan alone; in
merge_sheets the scan skips consumed right records, so the left record is
paired with the earliest satisfying right record among those not yet
consumed (every earlier right record is consumed or fails both pairs). -/
theorem C3_first_hit :
    (∀ (vi vk : Value) (rrows : List Row) (j : Nat) (r : Row) (mt : String),
      locScan vi vk rrows.enum = some (j, r, mt) →
        rrows[j]? = some r ∧ locMatches vi vk r = true
          ∧ ∀ i ri, i < j → rrows[i]? = some ri → locMatches vi vk ri = false)
    ∧ (∀ (rcols : List String) (rights : List (Nat × Row)) (lrows : List Row)
        (consumed : List Nat),
        (mergeLocRows rcols rights lrows consumed).1 = lrows.map (locEmit rcols rights))
    ∧ (∀ (consumed : List Nat) (vi vm : Value) (rrows : List Row) (j : Nat) (r : Row),
        sheetsScan consumed vi vm rrows.enum = some (j, r) →
          rrows[j]? = some r ∧ j ∉ consumed
            ∧ (values_match vi (getVal r "cdm_column")
                || values_match vm (getVal r "pdm_column")) = true
            ∧ ∀ i ri, i < j → rrows[i]? = some ri →
                i ∈ consumed ∨ (values_match vi (getVal ri "cdm_column")
                  || values_match vm (getVal ri "pdm_column")) = false) := by
  refine ⟨?_, mergeLocRows_fst_map, ?_⟩
  · intro vi vk rrows j r mt h
    obtain ⟨_, hget, hmatch, hbefore⟩ := locScan_enumFrom_first_hit 0 rrows h
    rw [Nat.sub_zero] at hget
    refine ⟨hget, hmatch, ?_⟩
    intro i ri hij hgeti
    have := hbefore i ri (Nat.zero_le i) hij (by rwa [Nat.sub_zero])
    exact this
  · intro consumed vi vm rrows j r h
    obtain ⟨_, hget, hnc, hmatch, hbefore⟩ := sheetsScan_enumFrom_first_hit 0 rrows h
    rw [Nat.sub_zero] at hget
    refine ⟨hget, hnc, hmatch, ?_⟩
    intro i ri hij hgeti
    exact hbefore i ri (Nat.zero_le i) hij (by rwa [Nat.sub_zero])

/-- Witness for C3_first_hit: two concrete scans.  For merge_loc_compare
both right rows match key x and the scan returns index 0; for merge_sheets
index 0 is consumed and the scan returns index 1, with the earlier
candidate consumed. -/
theorem C3_first_hit_witness :
    locScan (some "x") none
        ([[("cdm_column", some "X"), ("tag", some "r1")],
          [("cdm_column", some "X"), ("tag", some "r2")]] : List Row).enum
      = some (0, [("cdm_column", some "X"), ("tag", some "r1")], locLabel1)
    ∧ sheetsScan [0] (some "x") none
        ([[("cdm_column", some "X"), ("tag", some "r1")],
          [("cdm_column", some "X"), ("tag", some "r2")]] : List Row).enum
      = some (1, [("cdm_column", some "X"), ("tag", some "r2")])
    ∧ (([[("cdm_column", some "X"), ("tag", some "r1")],
         [("cdm_column", some "X"), ("tag", some "r2")]] : List Row)[0]?
          = some [("cdm_column", some "X"), ("tag", some "r1")]
        ∧ locMatches (some "x") none [("cdm_column", some "X"), ("tag", some "r1")] = true
        ∧ ∀ i ri, i < 0 →
            ([[("cdm_column", some "X"), ("tag", some "r1")],
              [("cdm_column", some "X"), ("tag", some "r2")]] : List Row)[i]? = some ri →
            locMatches (some "x") none ri = false)
    ∧ (([[("cdm_column", some "X"), ("tag", some "r1")],
         [("cdm_column", some "X"), ("tag", some "r2")]] : List Row)[1]?
          = some [("cdm_column", some "X"), ("tag", some "r2")]
        ∧ (1 : Nat) ∉ ([0] : List Nat)
        ∧ (values_match (some "x")
            (getVal [("cdm_column", some "X"), ("tag", some "r2")] "cdm_column")
            || values_match none
              (getVal [("cdm_column", some "X"), ("tag", some "r2")] "pdm_column")) = true
        ∧ ∀ i ri, i < 1 →
            ([[("cdm_column", some "X"), ("tag", some "r1")],
              [("cdm_column", some "X"), ("tag", some "r2")]] : List Row)[i]? = some ri →
            i ∈ ([0] : List Nat) ∨ (values_match (some "x") (getVal ri "cdm_column")
              || values_match none (getVal ri "pdm_column")) = false) := by
  refine ⟨by decide, by decide, ?_, ?_⟩
  · exact C3_first_hit.1 (some "x") none
      [[("cdm_column", some "X"), ("tag", some "r1")],
       [("cdm_column", some "X"), ("tag", some "r2")]]
      0 [("cdm_column", some "X"), ("tag", some "r1")] locLabel1 (by decide)
  · exact C3_first_hit.2.2 [0] (some "x") none
      [[("cdm_column", some "X"), ("tag", some "r1")],
       [("cdm_column", some "X"), ("tag", some "r2")]]
      1 [("cdm_column", some "X"), ("tag", some "r2")] (by decide)

/-! ## Every left record exactly once (claim C5) -/

theorem mergeSheetsRows_get? (rcols : List String) (rights : List (Nat × Row))
    (lrows : List Row) (consumed : List Nat) (k : Nat) (lrow : Row)
    (h : lrows[k]? = some lrow) :
    ∃ t, (mergeSheetsRows rcols rights lrows consumed).1[k]? = some (lrow ++ t) := by
  induction lrows generalizing consumed k with
  | nil => simp at h
  | cons l rest ih =>
    cases k with
    | zero =>
      simp only [List.getElem?_cons_zero, Option.some.injEq] at h
      subst h
      simp only [mergeSheetsRows]
      split
      · next idx r _ =>
        exact ⟨prefixedCols rcols r, by simp⟩
      · exact ⟨emptyRightCols rcols, by simp⟩
    | succ k =>
      simp only [List.getElem?_cons_succ] at h
      simp only [mergeSheetsRows]
      split
      · simpa using ih _ _ h
      · simpa using ih _ _ h

/-- C5, counterexample: in compare_sheets, a single CDL row whose key x
matches both GITHUB rows (values X and "x ") contributes two rows to the
matched output, so a left record does not appear exactly once. -/
theorem C5_counterexample :
    ([[("Table Field Name", some "x"), ("Biz Name", (none : Value))]] : List Row).length = 1
    ∧ (compare_sheets_matched
        [[("Table Field Name", some "x"), ("Biz Name", none)]]
        [[("cdm_column", some "X"), ("pdm_column", none)],
         [("cdm_column", some "x "), ("pdm_column", none)]]).map
        (fun r => (getVal r "CDL_Table_Field_Name", getVal r "GITHUB_cdm_column"))
      = [(some "x", some "X"), (some "x", some "x ")] := by
  exact ⟨by decide, by decide⟩

/-- C5, amended: in the four merge variants every left record contributes
exactly one output row: the output is the main block followed by the
unmatched-right tail, the main block has exactly one row per left row, and
its k-th row extends the k-th left row; shown here for merge_cust_compare,
merge_sheets and merge_loc_compare.  In compare_sheets, by contrast, a left
record appears once per matching (left, right) pair in the matched output. -/
theorem C5_left_exactly_once (lcols rcols : List String) (lrows rrows : List Row) :
    (merge_cust_core lcols rcols lrows rrows
        = (mergeCustRows rcols rrows.enum lrows []).1
          ++ custUnmatchedRights lcols rcols rrows.enum (custFinalConsumed rcols lrows rrows)
      ∧ (mergeCustRows rcols rrows.enum lrows []).1.length = lrows.length
      ∧ ∀ (k : Nat) (lrow : Row), lrows[k]? = some lrow →
          ∃ t : Row, (merge_cust_core lcols rcols lrows rrows)[k]? = some (lrow ++ t))
    ∧ ((mergeSheetsRows rcols rrows.enum lrows []).1.length = lrows.length
      ∧ ∀ (k : Nat) (lrow : Row), lrows[k]? = some lrow →
          ∃ t : Row, (merge_sheets_core lcols rcols lrows rrows)[k]? = some (lrow ++ t))
    ∧ ((mergeLocRows rcols rrows.enum lrows []).1.length = lrows.length
      ∧ ∀ (k : Nat) (lrow : Row), lrows[k]? = some lrow →
          ∃ t : Row, (merge_loc_core lcols rcols lrows rrows)[k]? = some (lrow ++ t)) := by
  refine ⟨⟨rfl, mergeCustRows_length _ _ _ _, ?_⟩,
    ⟨mergeSheetsRows_length _ _ _ _, ?_⟩,
    ⟨by rw [mergeLocRows_fst_map]; exact List.length_map _ _, ?_⟩⟩
  · intro k lrow h
    have hk : k < lrows.length := by
      rcases List.getElem?_eq_some_iff.mp h with ⟨hlt, _⟩
      exact hlt
    obtain ⟨t, ht⟩ := mergeCustRows_get? rcols rrows.enum lrows [] k lrow h
    refine ⟨t, ?_⟩
    unfold merge_cust_core
    rw [List.getElem?_append_left (by rw [mergeCustRows_length]; exact hk)]
    exact ht
  · intro k lrow h
    have hk : k < lrows.length := by
      rcases List.getElem?_eq_some_iff.mp h with ⟨hlt, _⟩
      exact hlt
    obtain ⟨t, ht⟩ := mergeSheetsRows_get? rcols rrows.enum lrows [] k lrow h
    refine ⟨t, ?_⟩
    unfold merge_sheets_core
    rw [List.getElem?_append_left (by rw [mergeSheetsRows_length]; exact hk)]
    exact ht
  · intro k lrow h
    have hk : k < lrows.length := by
      rcases List.getElem?_eq_some_iff.mp h with ⟨hlt, _⟩
      exact hlt
    unfold merge_loc_core
    rw [List.getElem?_append_left
      (by rw [mergeLocRows_fst_map]; rw [List.length_map]; exact hk)]
    rw [mergeLocRows_fst_map, List.getElem?_map, h, Option.map_some']
    cases hscan : locScan (getVal lrow "Table Field Name")
        (getVal lrow "EDL Tables") rrows.enum with
    | none =>
      exact ⟨[("Match_Type", some locNoMatch)], by simp [locEmit, hscan]⟩
    | some t =>
      obtain ⟨idx, r, label⟩ := t
      exact ⟨prefixedCols rcols r ++ [("Match_Type", some label)],
        by simp [locEmit, hscan]⟩

/-- Witness for C5_left_exactly_once on a one-row instance: the single left
row appears as the prefix of row 0 in all three variants. -/
theorem C5_left_exactly_once_witness :
    (([[("Table Field Name", some "x"), ("Biz Name", (none : Value)), ("c", none),
        ("EDL Tables", none)]] : List Row)[0]?
      = some [("Table Field Name", some "x"), ("Biz Name", none), ("c", none),
        ("EDL Tables", none)])
    ∧ (∃ t, (merge_cust_core ["Table Field Name", "Biz Name", "c", "EDL Tables"] ["cdm_column"]
        [[("Table Field Name", some "x"), ("Biz Name", none), ("c", none), ("EDL Tables", none)]]
        [[("cdm_column", some "X")]])[0]?
      = some ([("Table Field Name", some "x"), ("Biz Name", none), ("c", none),
          ("EDL Tables", none)] ++ t)) := by
  refine ⟨by decide, ?_⟩
  exact (C5_left_exactly_once ["Table Field Name", "Biz Name", "c", "EDL Tables"] ["cdm_column"]
    [[("Table Field Name", some "x"), ("Biz Name", none), ("c", none), ("EDL Tables", none)]]
    [[("cdm_column", some "X")]]).1.2.2 0
    [("Table Field Name", some "x"), ("Biz Name", none), ("c", none), ("EDL Tables", none)]
    (by decide)

/-! ## Dual-key classification (claim C6) -/

/-- C6, counterexample: in merge_cust_compare, a left row whose Column I
value x matches cdm_column X and whose Column K value y simultaneously
matches pdm_column Y of the same right row is classified with the
Column-I-only comment, not with any both-matches label: the key pairs are
checked sequentially and the first hit short-circuits the second check. -/
theorem C6_counterexample :
    values_match (some "x") (some "X") = true
    ∧ values_match (some "y") (some "Y") = true
    ∧ (merge_cust_core ["Table Field Name", "Biz Name"] ["cdm_column", "pdm_column"]
        [[("Table Field Name", some "x"), ("Biz Name", some "y")]]
        [[("cdm_column", some "X"), ("pdm_column", some "Y")]]).map
        (fun r => getVal r "Comments")
      = [some custComment1]
    ∧ custComment1 ≠ locBoth := by
  exact ⟨by decide, by decide, by decide, by decide⟩

/-- C6, amended: the Both_Matches classification exists only in the
variants that evaluate both key pairs per candidate.  In merge_loc_compare
and compare_sheets the emitted label is Both_Matches exactly when both key
pairs compare equal against the selected right record, and names the
single matching pair otherwise; in merge_cust_compare a right row matching
on the first key pair is labelled with the first-pair comment even when
the second pair also matches, because the second comparison is skipped. -/
theorem C6_dual_key_labels :
    (∀ (vi vk : Value) (rs : List (Nat × Row)) (j : Nat) (r : Row) (mt : String),
      locScan vi vk rs = some (j, r, mt) →
        (mt = locBoth ↔ values_match vi (getVal r "cdm_column") = true
          ∧ values_match vk (getVal r "pdm_column") = true)
        ∧ (values_match vi (getVal r "cdm_column") = true
            ∧ values_match vk (getVal r "pdm_column") = false → mt = locLabel1)
        ∧ (values_match vi (getVal r "cdm_column") = false
            ∧ values_match vk (getVal r "pdm_column") = true → mt = locLabel2))
    ∧ (∀ (vi vk : Value) (r : Row) (mt : String),
        csMatchType vi vk r = some mt →
          (mt = csBoth ↔ values_match vi (getVal r "cdm_column") = true
            ∧ values_match vk (getVal r "pdm_column") = true)
          ∧ (values_match vi (getVal r "cdm_column") = true
              ∧ values_match vk (getVal r "pdm_column") = false → mt = csLabel1)
          ∧ (values_match vi (getVal r "cdm_column") = false
              ∧ values_match vk (getVal r "pdm_column") = true → mt = csLabel2))
    ∧ (∀ (consumed : List Nat) (vi vk : Value) (idx : Nat) (r : Row)
        (rest : List (Nat × Row)),
        values_match vi (getVal r "cdm_column") = true →
        values_match vk (getVal r "pdm_column") = true →
        idx ∉ consumed →
        custScan consumed vi vk ((idx, r) :: rest) = .found idx r custComment1) := by
  refine ⟨?_, ?_, ?_⟩
  · intro vi vk rs j r mt h
    obtain ⟨_, _, _, _, _, hmt⟩ := locScan_first_hit h
    subst hmt
    cases h1 : values_match vi (getVal r "cdm_column")
      <;> cases h2 : values_match vk (getVal r "pdm_column")
      <;> simp [locLabel, locBoth, locLabel1, locLabel2, h1, h2]
  · intro vi vk r mt h
    simp only [csMatchType] at h
    cases h1 : values_match vi (getVal r "cdm_column")
      <;> cases h2 : values_match vk (getVal r "pdm_column")
      <;> rw [h1, h2] at h <;> simp at h <;> subst h
      <;> simp [csBoth, csLabel1, csLabel2, h1, h2]
  · intro consumed vi vk idx r rest h1 h2 hnc
    simp [custScan, h1, hnc]

/-- Witness for C6_dual_key_labels: a right row matching on both key pairs
gets the Both_Matches label from merge_loc_compare, while merge_cust_compare
labels the same situation with the first-pair comment. -/
theorem C6_dual_key_labels_witness :
    locScan (some "x") (some "y")
        [(0, [("cdm_column", some "X"), ("pdm_column", some "Y")])]
      = some (0, [("cdm_column", some "X"), ("pdm_column", some "Y")], locBoth)
    ∧ ((locBoth = locBoth ↔
          values_match (some "x")
              (getVal [("cdm_column", some "X"), ("pdm_column", some "Y")] "cdm_column") = true
            ∧ values_match (some "y")
              (getVal [("cdm_column", some "X"), ("pdm_column", some "Y")] "pdm_column") = true)
        ∧ (values_match (some "x")
              (getVal [("cdm_column", some "X"), ("pdm_column", some "Y")] "cdm_column") = true
            ∧ values_match (some "y")
              (getVal [("cdm_column", some "X"), ("pdm_column", some "Y")] "pdm_column") = false
            → locBoth = locLabel1)
        ∧ (values_match (some "x")
              (getVal [("cdm_column", some "X"), ("pdm_column", some "Y")] "cdm_column") = false
            ∧ values_match (some "y")
              (getVal [("cdm_column", some "X"), ("pdm_column", some "Y")] "pdm_column") = true
            → locBoth = locLabel2))
    ∧ custScan [] (some "x") (some "y")
        [(0, [("cdm_column", some "X"), ("pdm_column", some "Y")])]
      = .found 0 [("cdm_column", some "X"), ("pdm_column", some "Y")] custComment1 := by
  refine ⟨by decide, ?_, ?_⟩
  · exact C6_dual_key_labels.1 (some "x") (some "y")
      [(0, [("cdm_column", some "X"), ("pdm_column", some "Y")])] 0
      [("cdm_column", some "X"), ("pdm_column", some "Y")] locBoth (by decide)
  · exact C6_dual_key_labels.2.2 [] (some "x") (some "y") 0
      [("cdm_column", some "X"), ("pdm_column", some "Y")] [] (by decide) (by decide)
      (by decide)

/-! ## Unmatched right records (claim C7) -/

/-- No GITHUB_-prefixed column name equals the Match_Type column name. -/
theorem matchType_not_prefixed (c : String) : "Match_Type" ≠ "GITHUB_" ++ c := by
  intro h
  have hd : ("Match_Type").data = ("GITHUB_" ++ c).data := by rw [h]
  rw [String.data_append] at hd
  have h1 : ("Match_Type").data = 'M' :: "atch_Type".data := rfl
  have h2 : ("GITHUB_").data = 'G' :: "ITHUB_".data := rfl
  rw [h1, h2] at hd
  simp at hd

/-- Observable field content of an unmatched-right output row: every left
column reads as empty, the classification column carries its label, and
each prefixed right column reads back the original right cell. -/
theorem unmatchedRow_fields (lcols rcols : List String) (r : Row) (k : String) (v : Value)
    (h1 : k ∉ lcols) (hk : ∀ x : String, k ≠ "GITHUB_" ++ x)
    (h2 : ∀ c ∈ rcols, ("GITHUB_" ++ c) ∉ lcols) :
    (∀ c ∈ lcols, getVal (emptyLeftCols lcols ++ prefixedCols rcols r ++ [(k, v)]) c = none)
    ∧ getVal (emptyLeftCols lcols ++ prefixedCols rcols r ++ [(k, v)]) k = v
    ∧ ∀ c ∈ rcols, getVal (emptyLeftCols lcols ++ prefixedCols rcols r ++ [(k, v)])
        ("GITHUB_" ++ c) = getVal r c := by
  refine ⟨?_, ?_, ?_⟩
  · intro c hc
    simp only [getVal, List.append_assoc, List.lookup_append, lookup_emptyLeftCols hc,
      Option.or_some]
  · simp only [getVal, List.append_assoc, List.lookup_append,
      lookup_emptyLeftCols_not_mem h1, lookup_prefixedCols_unprefixed hk, Option.none_or]
    simp [List.lookup]
  · intro c hc
    simp only [getVal, List.append_assoc, List.lookup_append,
      lookup_emptyLeftCols_not_mem (h2 c hc), lookup_prefixedCols hc, Option.none_or,
      Option.or_some]

/-- Observable field content of an unmatched-right output row in the variant
without a classification column (merge_sheets): every left column reads as
empty, each prefixed right column reads back the original right cell, and
the row carries no Comments or Match_Type key at all. -/
theorem unmatchedRow_fields_nolabel (lcols rcols : List String) (r : Row)
    (hc : "Comments" ∉ lcols) (hm : "Match_Type" ∉ lcols)
    (hp : ∀ c ∈ rcols, ("GITHUB_" ++ c) ∉ lcols) :
    (∀ c ∈ lcols, getVal (emptyLeftCols lcols ++ prefixedCols rcols r) c = none)
    ∧ (∀ c ∈ rcols, getVal (emptyLeftCols lcols ++ prefixedCols rcols r)
        ("GITHUB_" ++ c) = getVal r c)
    ∧ List.lookup "Comments" (emptyLeftCols lcols ++ prefixedCols rcols r) = none
    ∧ List.lookup "Match_Type" (emptyLeftCols lcols ++ prefixedCols rcols r) = none := by
  refine ⟨?_, ?_, ?_, ?_⟩
  · intro c hcm
    simp only [getVal, List.lookup_append, lookup_emptyLeftCols hcm, Option.or_some]
  · intro c hcm
    simp only [getVal, List.lookup_append, lookup_emptyLeftCols_not_mem (hp c hcm),
      lookup_prefixedCols hcm, Option.none_or]
  · simp only [List.lookup_append, lookup_emptyLeftCols_not_mem hc,
      lookup_prefixedCols_unprefixed comments_not_prefixed, Option.none_or]
  · simp only [List.lookup_append, lookup_emptyLeftCols_not_mem hm,
      lookup_prefixedCols_unprefixed matchType_not_prefixed, Option.none_or]

/-- C7, counterexample: in compare_sheets the never-matched GITHUB record is
emitted (in the separate unmatched workbook) with its original unprefixed
columns only: the row has no prefixed right fields, no left fields at all,
and no classification column, contradicting the claimed row shape. -/
theorem C7_counterexample :
    csUnmatchedGithub
        [[("Table Field Name", some "x"), ("Biz Name", (none : Value))]]
        [[("cdm_column", some "z"), ("pdm_column", none)]]
      = [[("cdm_column", some "z"), ("pdm_column", none)]]
    ∧ List.lookup "Match_Type"
        ([("cdm_column", some "z"), ("pdm_column", (none : Value))] : Row) = none
    ∧ List.lookup "Comments"
        ([("cdm_column", some "z"), ("pdm_column", (none : Value))] : Row) = none
    ∧ List.lookup "GITHUB_cdm_column"
        ([("cdm_column", some "z"), ("pdm_column", (none : Value))] : Row) = none
    ∧ List.lookup "Table Field Name"
        ([("cdm_column", some "z"), ("pdm_column", (none : Value))] : Row) = none := by
  exact ⟨by decide, by decide, by decide, by decide, by decide⟩

/-- C7, amended: in merge_cust_compare and merge_loc_compare, after the
per-left rows the output appends exactly the right records never consumed,
in ascending original-position order, each row reading as empty on every
left column, carrying the unmatched-right classification, and reading back
every right cell under its GITHUB_ prefix.  merge_sheets appends the same
rows in the same order - empty left columns, prefixed right cells - but
with no classification key at all (no Comments and no Match_Type binding).
In compare_sheets the never-matched right records are instead written to a
separate sheet with their original unprefixed columns and no
classification (see the counterexample). -/
theorem C7_unmatched_right_tail (lcols rcols : List String) (lrows rrows : List Row)
    (hc : "Comments" ∉ lcols) (hm : "Match_Type" ∉ lcols)
    (hp : ∀ c ∈ rcols, ("GITHUB_" ++ c) ∉ lcols) :
    (∃ u : List (Nat × Row),
      (∀ p : Nat × Row, p ∈ u ↔ p ∈ rrows.enum ∧ p.1 ∉ custFinalConsumed rcols lrows rrows)
      ∧ u.Pairwise (fun a b => a.1 < b.1)
      ∧ merge_cust_core lcols rcols lrows rrows
          = (mergeCustRows rcols rrows.enum lrows []).1
            ++ u.map (fun p => emptyLeftCols lcols ++ prefixedCols rcols p.2
                ++ [("Comments", some custNoMatchRight)])
      ∧ ∀ p ∈ u,
          (∀ c ∈ lcols, getVal (emptyLeftCols lcols ++ prefixedCols rcols p.2
              ++ [("Comments", some custNoMatchRight)]) c = none)
          ∧ getVal (emptyLeftCols lcols ++ prefixedCols rcols p.2
              ++ [("Comments", some custNoMatchRight)]) "Comments" = some custNoMatchRight
          ∧ ∀ c ∈ rcols, getVal (emptyLeftCols lcols ++ prefixedCols rcols p.2
              ++ [("Comments", some custNoMatchRight)]) ("GITHUB_" ++ c) = getVal p.2 c)
    ∧ (∃ u : List (Nat × Row),
      (∀ p : Nat × Row, p ∈ u ↔ p ∈ rrows.enum
          ∧ p.1 ∉ (mergeLocRows rcols rrows.enum lrows []).2)
      ∧ u.Pairwise (fun a b => a.1 < b.1)
      ∧ merge_loc_core lcols rcols lrows rrows
          = (mergeLocRows rcols rrows.enum lrows []).1
            ++ u.map (fun p => emptyLeftCols lcols ++ prefixedCols rcols p.2
                ++ [("Match_Type", some locUnmatchedRight)])
      ∧ ∀ p ∈ u,
          (∀ c ∈ lcols, getVal (emptyLeftCols lcols ++ prefixedCols rcols p.2
              ++ [("Match_Type", some locUnmatchedRight)]) c = none)
          ∧ getVal (emptyLeftCols lcols ++ prefixedCols rcols p.2
              ++ [("Match_Type", some locUnmatchedRight)]) "Match_Type"
            = some locUnmatchedRight
          ∧ ∀ c ∈ rcols, getVal (emptyLeftCols lcols ++ prefixedCols rcols p.2
              ++ [("Match_Type", some locUnmatchedRight)]) ("GITHUB_" ++ c)
            = getVal p.2 c)
    ∧ (∃ u : List (Nat × Row),
      (∀ p : Nat × Row, p ∈ u ↔ p ∈ rrows.enum
          ∧ p.1 ∉ (mergeSheetsRows rcols rrows.enum lrows []).2)
      ∧ u.Pairwise (fun a b => a.1 < b.1)
      ∧ merge_sheets_core lcols rcols lrows rrows
          = (mergeSheetsRows rcols rrows.enum lrows []).1
            ++ u.map (fun p => emptyLeftCols lcols ++ prefixedCols rcols p.2)
      ∧ ∀ p ∈ u,
          (∀ c ∈ lcols, getVal (emptyLeftCols lcols ++ prefixedCols rcols p.2) c = none)
          ∧ (∀ c ∈ rcols, getVal (emptyLeftCols lcols ++ prefixedCols rcols p.2)
              ("GITHUB_" ++ c) = getVal p.2 c)
          ∧ List.lookup "Comments" (emptyLeftCols lcols ++ prefixedCols rcols p.2) = none
          ∧ List.lookup "Match_Type" (emptyLeftCols lcols ++ prefixedCols rcols p.2)
            = none) := by
  refine ⟨?_, ?_, ?_⟩
  · refine ⟨rrows.enum.filter
      (fun p => decide (p.1 ∉ custFinalConsumed rcols lrows rrows)), ?_, ?_, rfl, ?_⟩
    · intro p
      simp [List.mem_filter]
    · exact List.Pairwise.sublist (List.filter_sublist _) (pairwise_fst_lt_enum rrows)
    · intro p _
      exact unmatchedRow_fields lcols rcols p.2 "Comments" (some custNoMatchRight)
        hc comments_not_prefixed hp
  · refine ⟨rrows.enum.filter
      (fun p => decide (p.1 ∉ (mergeLocRows rcols rrows.enum lrows []).2)), ?_, ?_, rfl, ?_⟩
    · intro p
      simp [List.mem_filter]
    · exact List.Pairwise.sublist (List.filter_sublist _) (pairwise_fst_lt_enum rrows)
    · intro p _
      exact unmatchedRow_fields lcols rcols p.2 "Match_Type" (some locUnmatchedRight)
        hm matchType_not_prefixed hp
  · refine ⟨rrows.enum.filter
      (fun p => decide (p.1 ∉ (mergeSheetsRows rcols rrows.enum lrows []).2)), ?_, ?_, rfl, ?_⟩
    · intro p
      simp [List.mem_filter]
    · exact List.Pairwise.sublist (List.filter_sublist _) (pairwise_fst_lt_enum rrows)
    · intro p _
      exact unmatchedRow_fields_nolabel lcols rcols p.2 hc hm hp

/-- Witness for C7_unmatched_right_tail on a one-column instance with no
left rows and one right row. -/
theorem C7_unmatched_right_tail_witness :
    ("Comments" ∉ (["a"] : List String))
    ∧ ("Match_Type" ∉ (["a"] : List String))
    ∧ (∀ c ∈ (["b"] : List String), ("GITHUB_" ++ c) ∉ (["a"] : List String))
    ∧ ((∃ u : List (Nat × Row),
        (∀ p : Nat × Row, p ∈ u ↔ p ∈ ([[("b", some "z")]] : List Row).enum
            ∧ p.1 ∉ custFinalConsumed ["b"] [] [[("b", some "z")]])
        ∧ u.Pairwise (fun a b => a.1 < b.1)
        ∧ merge_cust_core ["a"] ["b"] [] [[("b", some "z")]]
            = (mergeCustRows ["b"] ([[("b", some "z")]] : List Row).enum [] []).1
              ++ u.map (fun p => emptyLeftCols ["a"] ++ prefixedCols ["b"] p.2
                  ++ [("Comments", some custNoMatchRight)])
        ∧ ∀ p ∈ u,
            (∀ c ∈ (["a"] : List String), getVal (emptyLeftCols ["a"] ++ prefixedCols ["b"] p.2
                ++ [("Comments", some custNoMatchRight)]) c = none)
            ∧ getVal (emptyLeftCols ["a"] ++ prefixedCols ["b"] p.2
                ++ [("Comments", some custNoMatchRight)]) "Comments" = some custNoMatchRight
            ∧ ∀ c ∈ (["b"] : List String), getVal (emptyLeftCols ["a"] ++ prefixedCols ["b"] p.2
                ++ [("Comments", some custNoMatchRight)]) ("GITHUB_" ++ c) = getVal p.2 c)
      ∧ (∃ u : List (Nat × Row),
        (∀ p : Nat × Row, p ∈ u ↔ p ∈ ([[("b", some "z")]] : List Row).enum
            ∧ p.1 ∉ (mergeLocRows ["b"] ([[("b", some "z")]] : List Row).enum [] []).2)
        ∧ u.Pairwise (fun a b => a.1 < b.1)
        ∧ merge_loc_core ["a"] ["b"] [] [[("b", some "z")]]
            = (mergeLocRows ["b"] ([[("b", some "z")]] : List Row).enum [] []).1
              ++ u.map (fun p => emptyLeftCols ["a"] ++ prefixedCols ["b"] p.2
                  ++ [("Match_Type", some locUnmatchedRight)])
        ∧ ∀ p ∈ u,
            (∀ c ∈ (["a"] : List String), getVal (emptyLeftCols ["a"] ++ prefixedCols ["b"] p.2
                ++ [("Match_Type", some locUnmatchedRight)]) c = none)
            ∧ getVal (emptyLeftCols ["a"] ++ prefixedCols ["b"] p.2
                ++ [("Match_Type", some locUnmatchedRight)]) "Match_Type"
              = some locUnmatchedRight
            ∧ ∀ c ∈ (["b"] : List String), getVal (emptyLeftCols ["a"] ++ prefixedCols ["b"] p.2
                ++ [("Match_Type", some locUnmatchedRight)]) ("GITHUB_" ++ c)
              = getVal p.2 c)
      ∧ (∃ u : List (Nat × Row),
        (∀ p : Nat × Row, p ∈ u ↔ p ∈ ([[("b", some "z")]] : List Row).enum
            ∧ p.1 ∉ (mergeSheetsRows ["b"] ([[("b", some "z")]] : List Row).enum [] []).2)
        ∧ u.Pairwise (fun a b => a.1 < b.1)
        ∧ merge_sheets_core ["a"] ["b"] [] [[("b", some "z")]]
            = (mergeSheetsRows ["b"] ([[("b", some "z")]] : List Row).enum [] []).1
              ++ u.map (fun p => emptyLeftCols ["a"] ++ prefixedCols ["b"] p.2)
        ∧ ∀ p ∈ u,
            (∀ c ∈ (["a"] : List String),
              getVal (emptyLeftCols ["a"] ++ prefixedCols ["b"] p.2) c = none)
            ∧ (∀ c ∈ (["b"] : List String),
              getVal (emptyLeftCols ["a"] ++ prefixedCols ["b"] p.2)
                ("GITHUB_" ++ c) = getVal p.2 c)
            ∧ List.lookup "Comments" (emptyLeftCols ["a"] ++ prefixedCols ["b"] p.2) = none
            ∧ List.lookup "Match_Type" (emptyLeftCols ["a"] ++ prefixedCols ["b"] p.2)
              = none)) := by
  refine ⟨by decide, by decide, by decide, ?_⟩
  exact C7_unmatched_right_tail ["a"] ["b"] [] [[("b", some "z")]]
    (by decide) (by decide) (by decide)

/-! ## Eager required-field validation (claim C8) -/

/-- C8: when a required key column is absent from the left or right schema,
merge_cust_compare and compare_sheets fail with the error message naming
the offending column (the first missing one in source check order), and the
result does not depend on the row data at all - no match comparison
contributes to it. -/
theorem C8_missing_field_fail_fast (lcols rcols : List String) (lrows rrows : List Row)
    (h : "Table Field Name" ∉ lcols ∨ "Biz Name" ∉ lcols
      ∨ "cdm_column" ∉ rcols ∨ "pdm_column" ∉ rcols) :
    ((∃ m, merge_cust_compare lcols rcols lrows rrows = .error m)
      ∧ ("Table Field Name" ∉ lcols →
          merge_cust_compare lcols rcols lrows rrows
            = .error "CDL sheet must contain column Table Field Name")
      ∧ ("Table Field Name" ∈ lcols → "Biz Name" ∉ lcols →
          merge_cust_compare lcols rcols lrows rrows
            = .error "CDL sheet must contain column Biz Name")
      ∧ ("Table Field Name" ∈ lcols → "Biz Name" ∈ lcols → "cdm_column" ∉ rcols →
          merge_cust_compare lcols rcols lrows rrows
            = .error "GITHUB sheet must contain column cdm_column")
      ∧ ("Table Field Name" ∈ lcols → "Biz Name" ∈ lcols → "cdm_column" ∈ rcols →
          "pdm_column" ∉ rcols →
          merge_cust_compare lcols rcols lrows rrows
            = .error "GITHUB sheet must contain column pdm_column")
      ∧ ∀ lrows2 rrows2, merge_cust_compare lcols rcols lrows rrows
          = merge_cust_compare lcols rcols lrows2 rrows2)
    ∧ ((∃ m, compare_sheets lcols rcols lrows rrows = .error m)
      ∧ (("Table Field Name" ∉ lcols ∨ "Biz Name" ∉ lcols) →
          compare_sheets lcols rcols lrows rrows
            = .error "CDL sheet must contain columns Table Field Name and Biz Name")
      ∧ ("Table Field Name" ∈ lcols → "Biz Name" ∈ lcols →
          ("cdm_column" ∉ rcols ∨ "pdm_column" ∉ rcols) →
          compare_sheets lcols rcols lrows rrows
            = .error "GITHUB sheet must contain columns cdm_column and pdm_column")
      ∧ ∀ lrows2 rrows2, compare_sheets lcols rcols lrows rrows
          = compare_sheets lcols rcols lrows2 rrows2) := by
  by_cases h1 : "Table Field Name" ∈ lcols <;>
    by_cases h2 : "Biz Name" ∈ lcols <;>
    by_cases h3 : "cdm_column" ∈ rcols <;>
    by_cases h4 : "pdm_column" ∈ rcols <;>
    simp_all [merge_cust_compare, compare_sheets]

/-- Witness for C8_missing_field_fail_fast with every schema empty, so the
first check (Table Field Name) fires in both scripts. -/
theorem C8_missing_field_fail_fast_witness :
    ("Table Field Name" ∉ ([] : List String) ∨ "Biz Name" ∉ ([] : List String)
      ∨ "cdm_column" ∉ ([] : List String) ∨ "pdm_column" ∉ ([] : List String))
    ∧ (((∃ m, merge_cust_compare [] [] [] [] = .error m)
      ∧ ("Table Field Name" ∉ ([] : List String) →
          merge_cust_compare [] [] [] []
            = .error "CDL sheet must contain column Table Field Name")
      ∧ ("Table Field Name" ∈ ([] : List String) → "Biz Name" ∉ ([] : List String) →
          merge_cust_compare [] [] [] []
            = .error "CDL sheet must contain column Biz Name")
      ∧ ("Table Field Name" ∈ ([] : List String) → "Biz Name" ∈ ([] : List String) →
          "cdm_column" ∉ ([] : List String) →
          merge_cust_compare [] [] [] []
            = .error "GITHUB sheet must contain column cdm_column")
      ∧ ("Table Field Name" ∈ ([] : List String) → "Biz Name" ∈ ([] : List String) →
          "cdm_column" ∈ ([] : List String) → "pdm_column" ∉ ([] : List String) →
          merge_cust_compare [] [] [] []
            = .error "GITHUB sheet must contain column pdm_column")
      ∧ ∀ lrows2 rrows2, merge_cust_compare [] [] [] []
          = merge_cust_compare [] [] lrows2 rrows2)
    ∧ ((∃ m, compare_sheets [] [] [] [] = .error m)
      ∧ (("Table Field Name" ∉ ([] : List String) ∨ "Biz Name" ∉ ([] : List String)) →
          compare_sheets [] [] [] []
            = .error "CDL sheet must contain columns Table Field Name and Biz Name")
      ∧ ("Table Field Name" ∈ ([] : List String) → "Biz Name" ∈ ([] : List String) →
          ("cdm_column" ∉ ([] : List String) ∨ "pdm_column" ∉ ([] : List String)) →
          compare_sheets [] [] [] []
            = .error "GITHUB sheet must contain columns cdm_column and pdm_column")
      ∧ ∀ lrows2 rrows2, compare_sheets [] [] [] []
          = compare_sheets [] [] lrows2 rrows2)) := by
  refine ⟨by decide, ?_⟩
  exact C8_missing_field_fail_fast [] [] [] [] (by decide)

/-! ## Many-to-many matching in compare_sheets (claim C9) -/

theorem csInnerLoop_records (lidx : Nat) (lrow : Row) (st : CsState)
    (rs : List (Nat × Row)) :
    (csInnerLoop lidx lrow st rs).records
      = st.records ++ rs.filterMap (fun p =>
          (csMatchType (getVal lrow "Table Field Name") (getVal lrow "Biz Name") p.2).map
            (fun mt => csRecord mt lrow p.2)) := by
  induction rs generalizing st with
  | nil => simp [csInnerLoop]
  | cons p rest ih =>
    obtain ⟨ridx, r⟩ := p
    simp only [csInnerLoop]
    cases hmt : csMatchType (getVal lrow "Table Field Name") (getVal lrow "Biz Name") r with
    | some mt =>
      simp [List.filterMap_cons, hmt, ih, List.append_assoc]
    | none =>
      simp [List.filterMap_cons, hmt, ih]

/-- The matched records compare_sheets.py appends for one CDL row: nothing
when both key cells are NaN (line 56), otherwise one combined record per
GITHUB row whose keys compare equal. -/
def csEmitsFor (rights : List (Nat × Row)) (q : Nat × Row) : List Row :=
  if (getVal q.2 "Table Field Name").isNone && (getVal q.2 "Biz Name").isNone then []
  else rights.filterMap (fun p =>
    (csMatchType (getVal q.2 "Table Field Name") (getVal q.2 "Biz Name") p.2).map
      (fun mt => csRecord mt q.2 p.2))

theorem csOuterLoop_records (rights ls : List (Nat × Row)) (st : CsState) :
    (csOuterLoop rights ls st).records = st.records ++ ls.flatMap (csEmitsFor rights) := by
  induction ls generalizing st with
  | nil => simp [csOuterLoop]
  | cons q rest ih =>
    obtain ⟨lidx, l⟩ := q
    simp only [csOuterLoop]
    split
    · next hcond =>
      rw [ih]
      simp [csEmitsFor, hcond]
    · next hcond =>
      rw [ih, csInnerLoop_records]
      simp only [csEmitsFor, List.flatMap_cons, List.append_assoc]
      rw [if_neg hcond]

/-- C9: compare_sheets performs many-to-many matching with no consumption:
its matched output is exactly one combined row per (left row, right row)
pair whose keys compare equal taken in scan order, so a left row matching k
right rows appears k times, and the total length is the sum over left rows
of their matching right-row counts. -/
theorem C9_many_to_many (lrows rrows : List Row) :
    compare_sheets_matched lrows rrows = lrows.enum.flatMap (csEmitsFor rrows.enum)
    ∧ (compare_sheets_matched lrows rrows).length
        = (lrows.enum.map (fun q => (csEmitsFor rrows.enum q).length)).sum := by
  have h := csOuterLoop_records rrows.enum lrows.enum ⟨[], [], []⟩
  have h1 : compare_sheets_matched lrows rrows = lrows.enum.flatMap (csEmitsFor rrows.enum) := by
    simpa [compare_sheets_matched, compare_sheets_core] using h
  refine ⟨h1, ?_⟩
  rw [h1]
  show (List.flatten (List.map _ _)).length = _
  rw [List.length_flatten, List.map_map]
  rfl
